import Mathlib

/-!
Verification development for the multi-grasp motion-planning core of
hfts_grasp_planner (C++ sources: MultiGraspRoadmap.cpp, SearchCommon.h,
LPAStar.h, MGGraphSearchMP.h, ORCostsAndValidity.cpp).

Modelling conventions (shallow embedding over exact rational arithmetic):
* C++ `double` values that the program compares against IEEE infinity are
  modelled as `Option ℚ` with `none` standing for `+∞` and `some q` for the
  finite value `q`.  The program never produces NaN or `-∞` on the modelled
  paths.
* `std::map` / `std::unordered_map` objects are modelled as association lists
  `List (ℕ × α)`; `insert` (which never overwrites), `operator[]` assignment
  (which overwrites), `erase` and `find` are modelled by the helpers below.
* `shared_ptr` sharing of edge objects between their two endpoint nodes is
  modelled by a central edge store keyed by an edge id; each node keeps a map
  from neighbor uid to edge id, so a mutation through one endpoint is visible
  through the other, as in the C++.
* The Euclidean norm `(b - a).norm()` of a configuration difference is
  irrational in general, so it is passed to the integrators as an explicit
  rational parameter `nrm`; all theorems quantify over it.  The counterexamples
  use one-dimensional configurations, where the Euclidean norm is the rational
  absolute difference.
* Functions whose C++ bodies can throw are modelled in `Except String`;
  functions whose bodies contain `assert` are given an error result on the
  assertion-failure path.  Reading an uninitialized scalar member is modelled
  by an `Option` field holding `none`.
-/

namespace HFTS

/-- A robot configuration: an ordered sequence of joint values. -/
abbrev Config := List ℚ

/-- An extended cost: `none` models the IEEE value `+∞`, `some q` a finite cost. -/
abbrev ICost := Option ℚ

/-- Addition on extended costs (`∞ + x = ∞`). -/
def iAdd : ICost → ICost → ICost
  | some a, some b => some (a + b)
  | _, _ => none

/-- Minimum of extended costs (`∞` is the largest element). -/
def iMin : ICost → ICost → ICost
  | some a, some b => some (min a b)
  | some a, none => some a
  | none, b => b

/-- Strict order on extended costs, with `none = +∞` as top. -/
def iLt : ICost → ICost → Bool
  | none, _ => false
  | some _, none => true
  | some a, some b => decide (a < b)

/-- Non-strict order on extended costs. -/
def iLe : ICost → ICost → Bool
  | _, none => true
  | none, some _ => false
  | some a, some b => decide (a ≤ b)

/-- Lookup in an association list, modelling `map.find(k)`. -/
def lookupA {α : Type} : List (ℕ × α) → ℕ → Option α
  | [], _ => none
  | (k, v) :: rest, key => if k = key then some v else lookupA rest key

/-- Key membership in an association list. -/
def containsA {α : Type} (l : List (ℕ × α)) (key : ℕ) : Bool :=
  (lookupA l key).isSome

/-- `map.insert(make_pair(k, v))`: inserts only when the key is absent. -/
def insertNoReplace {α : Type} (l : List (ℕ × α)) (key : ℕ) (v : α) : List (ℕ × α) :=
  if containsA l key then l else (key, v) :: l

/-- `map[k] = v`: overwrites when present, inserts when absent. -/
def setA {α : Type} (l : List (ℕ × α)) (key : ℕ) (v : α) : List (ℕ × α) :=
  if containsA l key then l.map (fun p => if p.1 = key then (key, v) else p)
  else (key, v) :: l

/-- `map.erase(k)`: removes the entry with the given key. -/
def eraseA {α : Type} (l : List (ℕ × α)) (key : ℕ) : List (ℕ × α) :=
  l.filter (fun p => p.1 ≠ key)

end HFTS

namespace HFTS

/-! ## Edge-cost integrators

Two independent implementations exist in the sources:
`IntegralEdgeCostComputer::integrateCosts` (MultiGraspRoadmap.cpp, lines
19-47) and `ORSceneInterface::integrateCosts` (ORCostsAndValidity.cpp, lines
140-162, with `STEP_SIZE` fixed to `0.001`).  Claim C6 compares them. -/

/-- The fixed step size `#define STEP_SIZE 0.001` of ORCostsAndValidity.cpp. -/
def ORStepSize : ℚ := 1 / 1000

/-- Model of `(unsigned int) std::ceil(q)` for the nonnegative rational
arguments arising in the integrators (`norm / step_size` with positive norm
and step).  For `q = n / d` in lowest terms with `n ≥ 0` this is the rounded-up
integer division `(n + d - 1) / d`; nonpositive arguments map to `0`. -/
def cppCeil (q : ℚ) : ℕ := (q.num.toNat + q.den - 1) / q.den

/-- Sample configuration of `IntegralEdgeCostComputer::integrateCosts`:
`qvec = progress * delta + avec` where `delta = (b - a) / ‖b - a‖`. -/
def ieccSample (a b : Config) (nrm progress : ℚ) : Config :=
  List.zipWith (fun ai bi => progress * ((bi - ai) / nrm) + ai) a b

/-- Sample configuration of `ORSceneInterface::integrateCosts`:
`q = min(t * STEP_SIZE / norm, 1.0) * delta + avec` where `delta = b - a`. -/
def orSample (a b : Config) (nrm h : ℚ) (t : ℕ) : Config :=
  List.zipWith (fun ai bi => min ((t : ℚ) * h / nrm) 1 * (bi - ai) + ai) a b

/-- Loop of `IntegralEdgeCostComputer::integrateCosts` (MultiGraspRoadmap.cpp
lines 37-45): at each step evaluate the cost at the current progress, take a
step `min(step_size, norm - progress)`, and accumulate `cost * step`;
short-circuit to `+∞` when a sampled cost is `+∞`. -/
def ieccLoop (fn : Config → ICost) (a b : Config) (nrm h : ℚ) :
    ℕ → ℚ → ℚ → ICost
  | 0, _, acc => some acc
  | fuel + 1, progress, acc =>
      let q := ieccSample a b nrm progress
      let s := min h (nrm - progress)
      match fn q with
      | none => none
      | some dc => ieccLoop fn a b nrm h fuel (progress + s) (acc + dc * s)

/-- `IntegralEdgeCostComputer::integrateCosts` (MultiGraspRoadmap.cpp lines
19-47).  `nrm` stands for the Euclidean norm `‖b - a‖`, which is irrational in
general and therefore passed explicitly; `num_steps = ⌈norm / step_size⌉`. -/
def IntegralEdgeCostComputer.integrateCosts (h : ℚ) (a b : Config) (nrm : ℚ)
    (fn : Config → ICost) : ICost :=
  if nrm = 0 then some 0
  else ieccLoop fn a b nrm h (cppCeil (nrm / h)) 0 0

/-- Loop of `ORSceneInterface::integrateCosts` (ORCostsAndValidity.cpp lines
154-160): every step accumulates `cost * STEP_SIZE`, the final step included.
The state is the loop counter `t` and the remaining iteration count. -/
def orLoop (fn : Config → ICost) (a b : Config) (nrm : ℚ) :
    ℕ → ℕ → ℚ → ICost
  | _, 0, acc => some acc
  | t, r + 1, acc =>
      let q := orSample a b nrm ORStepSize t
      match fn q with
      | none => none
      | some dc => orLoop fn a b nrm (t + 1) r (acc + dc * ORStepSize)

/-- `ORSceneInterface::integrateCosts` (ORCostsAndValidity.cpp lines 140-162).
`nrm` stands for the Euclidean norm `‖b - a‖`. -/
def ORSceneInterface.integrateCosts (a b : Config) (nrm : ℚ)
    (fn : Config → ICost) : ICost :=
  if nrm = 0 then some 0
  else orLoop fn a b nrm 0 (cppCeil (nrm / ORStepSize)) 0

/-! ## State space oracle and roadmap

The roadmap is implemented in MultiGraspRoadmap.cpp; the class declarations
live in the header MultiGraspRoadmap.h, whose text is not part of the sources,
but every field is visible through its uses in the .cpp file. -/

/-- The external `StateSpace` oracle: distance metric, validity checks (plain
and grasp-conditional) and point costs (plain and grasp-conditional).  `dist`
stands for the Euclidean configuration-space distance. -/
structure StateSpace where
  dist : Config → Config → ℚ
  validB : Config → Bool
  validG : Config → ℕ → Bool
  cost : Config → ICost
  costG : Config → ℕ → ICost

/-- A roadmap node (`Roadmap::Node`).  Fields are those read and written by
MultiGraspRoadmap.cpp: `uid`, `config`, `initialized`, `conditional_validity`,
`edges` (map from neighbor uid to an edge id into the central edge store) and
`densification_gen`. -/
structure RNode where
  uid : ℕ
  config : Config
  initialized : Bool
  conditional_validity : List (ℕ × Bool)
  edges : List (ℕ × ℕ)
  densification_gen : ℕ
deriving DecidableEq

/-- A roadmap edge (`Roadmap::Edge`): endpoint uids, `base_cost`,
`base_evaluated` and the per-grasp `conditional_costs` cache. -/
structure REdge where
  node_a : ℕ
  node_b : ℕ
  base_cost : ICost
  base_evaluated : Bool
  conditional_costs : List (ℕ × ICost)
deriving DecidableEq

/-- The roadmap state: the oracle, the integrator step size, the node map
`_nodes`, the nearest-neighbor index `_nn` (its membership only), the shared
edge objects (keyed by edge id), and the counters.  `dens_gen` is
`_densification_gen`. -/
structure Roadmap where
  ss : StateSpace
  step : ℚ
  nodes : List (ℕ × RNode)
  nn : List ℕ
  edge_store : List (ℕ × REdge)
  node_counter : ℕ
  edge_counter : ℕ
  dens_gen : ℕ

/-- `IntegralEdgeCostComputer::lowerBound`: the state-space distance. -/
def IntegralEdgeCostComputer.lowerBound (ss : StateSpace) (a b : Config) : ℚ :=
  ss.dist a b

/-- Rewrite one node of the node map in place. -/
def modifyNode (rm : Roadmap) (uid : ℕ) (f : RNode → RNode) : Roadmap :=
  { rm with nodes := rm.nodes.map (fun p => if p.1 = uid then (p.1, f p.2) else p) }

/-- Edge creation inside `Roadmap::updateAdjacency` (MultiGraspRoadmap.cpp
lines 265-266): `base_cost` is seeded with the lower bound and
`base_evaluated` is false. -/
def Roadmap.newEdge (rm : Roadmap) (a b : RNode) : REdge :=
  { node_a := a.uid
    node_b := b.uid
    base_cost := some (IntegralEdgeCostComputer.lowerBound rm.ss a.config b.config)
    base_evaluated := false
    conditional_costs := [] }

/-- `Roadmap::addNode` (MultiGraspRoadmap.cpp lines 242-249): a fresh node with
the next uid is added to the nearest-neighbor index and the node map.  The
`Node` constructor initializers live in the missing header; per the spec the
node starts uninitialized with empty adjacency. -/
def Roadmap.addNode (rm : Roadmap) (cfg : Config) : Roadmap × ℕ :=
  let uid := rm.node_counter
  let node : RNode :=
    { uid := uid, config := cfg, initialized := false, conditional_validity := []
      edges := [], densification_gen := 0 }
  ({ rm with
      node_counter := uid + 1
      nn := uid :: rm.nn
      nodes := insertNoReplace rm.nodes uid node }, uid)

/-- The mutation `Roadmap::deleteNode` applies to each incident edge
(MultiGraspRoadmap.cpp lines 384-389): `base_evaluated = true` and
`base_cost = +∞`. -/
def killEdgeData (e : REdge) : REdge :=
  { e with base_evaluated := true, base_cost := none }

/-- Apply `killEdgeData` to the edge with the given id in the edge store. -/
def killEdge (store : List (ℕ × REdge)) (eid : ℕ) : List (ℕ × REdge) :=
  store.map (fun p => if p.1 = eid then (p.1, killEdgeData p.2) else p)

/-- `Roadmap::deleteNode` (MultiGraspRoadmap.cpp lines 376-391): remove the
node from the nearest-neighbor index and the node map, then set every incident
edge to evaluated-infinite cost. -/
def Roadmap.deleteNode (rm : Roadmap) (node : RNode) : Roadmap :=
  let rm1 := { rm with
    nn := rm.nn.filter (fun x => x ≠ node.uid)
    nodes := eraseA rm.nodes node.uid }
  { rm1 with edge_store := node.edges.foldl (fun st pr => killEdge st pr.2) rm1.edge_store }

/-- `Roadmap::isValid(NodeWeakPtr)` (MultiGraspRoadmap.cpp lines 285-302): an
expired weak pointer (node absent from the map) yields false; an uninitialized
node is checked against the oracle and deleted when base-invalid; otherwise the
node is marked initialized and the call returns true. -/
def Roadmap.isValidBase (rm : Roadmap) (uid : ℕ) : Bool × Roadmap :=
  match lookupA rm.nodes uid with
  | none => (false, rm)
  | some node =>
      if node.initialized then
        (true, modifyNode rm uid (fun n => { n with initialized := true }))
      else
        let valid := rm.ss.validB node.config
        if valid then
          (true, modifyNode rm uid (fun n => { n with initialized := true }))
        else
          (false, rm.deleteNode node)

/-- `Roadmap::isValid(NodeWeakPtr, grasp_id)` (MultiGraspRoadmap.cpp lines
304-321): requires base validity, then memoizes the per-grasp oracle answer in
`conditional_validity`. -/
def Roadmap.isValidGrasp (rm : Roadmap) (uid gid : ℕ) : Bool × Roadmap :=
  let res := rm.isValidBase uid
  if res.1 then
    match lookupA res.2.nodes uid with
    | none => (false, res.2)
    | some node =>
        match lookupA node.conditional_validity gid with
        | some v => (v, res.2)
        | none =>
            let v := res.2.ss.validG node.config gid
            (v, modifyNode res.2 uid
              (fun n => { n with conditional_validity := setA n.conditional_validity gid v }))
  else (false, res.2)

/-- `Roadmap::computeCost(EdgePtr)` (MultiGraspRoadmap.cpp lines 323-337): an
already evaluated edge short-circuits; otherwise the base cost is computed by
the integrator over the oracle point cost, stored, and marked evaluated.  The
`EdgePtr` is modelled as the pair of the edge id (to address the shared store)
and the edge value; `none` models the assertion-failure path of an expired
endpoint. -/
def Roadmap.computeCost (rm : Roadmap) (eid : ℕ) (e : REdge) :
    Option ((Bool × ICost) × Roadmap) :=
  if e.base_evaluated = true then some ((e.base_cost.isSome, e.base_cost), rm)
  else
    match lookupA rm.nodes e.node_a, lookupA rm.nodes e.node_b with
    | some na, some nb =>
        let c := IntegralEdgeCostComputer.integrateCosts rm.step na.config nb.config
          (rm.ss.dist na.config nb.config) rm.ss.cost
        let e2 := { e with base_cost := c, base_evaluated := true }
        some ((c.isSome, c), { rm with edge_store := setA rm.edge_store eid e2 })
    | _, _ => none

/-- `Roadmap::computeCost(EdgeWeakPtr)` (MultiGraspRoadmap.cpp lines 339-345):
an expired edge yields `(false, +∞)`, otherwise the strong overload runs. -/
def Roadmap.computeCostW (rm : Roadmap) (eid : ℕ) : Option ((Bool × ICost) × Roadmap) :=
  match lookupA rm.edge_store eid with
  | none => some ((false, none), rm)
  | some e => rm.computeCost eid e

/-- `Roadmap::computeCost(EdgePtr, grasp_id)` (MultiGraspRoadmap.cpp lines
347-366): an evaluated-infinite base cost short-circuits; otherwise the
per-grasp cost cache is consulted and filled from the grasp-conditional
integrator.  The base cost is never modified. -/
def Roadmap.computeCostGrasp (rm : Roadmap) (eid : ℕ) (e : REdge) (gid : ℕ) :
    Option ((Bool × ICost) × Roadmap) :=
  if e.base_evaluated = true ∧ e.base_cost = none then some ((false, e.base_cost), rm)
  else
    match lookupA e.conditional_costs gid with
    | some c => some ((c.isSome, c), rm)
    | none =>
        match lookupA rm.nodes e.node_a, lookupA rm.nodes e.node_b with
        | some na, some nb =>
            let c := IntegralEdgeCostComputer.integrateCosts rm.step na.config nb.config
              (rm.ss.dist na.config nb.config) (fun q => rm.ss.costG q gid)
            let e2 := { e with conditional_costs := insertNoReplace e.conditional_costs gid c }
            some ((c.isSome, c), { rm with edge_store := setA rm.edge_store eid e2 })
        | _, _ => none

/-- Edge insertion step of `Roadmap::updateAdjacency` (MultiGraspRoadmap.cpp
lines 260-270): when the candidate neighbor is distinct from the node and not
already adjacent, a fresh edge seeded with the lower bound is created and
registered in the adjacency maps of both endpoints. -/
def addEdgeIfAbsent (rm : Roadmap) (uid nbr : ℕ) : Roadmap :=
  match lookupA rm.nodes uid, lookupA rm.nodes nbr with
  | some node, some nnode =>
      if (lookupA node.edges nbr).isNone ∧ nbr ≠ uid then
        let e := rm.newEdge node nnode
        let eid := rm.edge_counter
        let rm1 := { rm with
          edge_store := insertNoReplace rm.edge_store eid e
          edge_counter := eid + 1 }
        let rm2 := modifyNode rm1 uid (fun n => { n with edges := insertNoReplace n.edges nbr eid })
        modifyNode rm2 nbr (fun n => { n with edges := insertNoReplace n.edges uid eid })
      else rm
  | _, _ => rm

/-- The generation-guarded edge insertion phase of `Roadmap::updateAdjacency`
(MultiGraspRoadmap.cpp lines 254-272): when the node is not at the current
densification generation, edges to all radius neighbors are inserted and the
generation is brought up to date. -/
def Roadmap.adjacencyInsertPhase (rm : Roadmap) (neighbors : List ℕ) (uid : ℕ)
    (node : RNode) : Roadmap :=
  if node.densification_gen ≠ rm.dens_gen then
    modifyNode (neighbors.foldl (fun acc nbr => addEdgeIfAbsent acc uid nbr) rm) uid
      (fun n => { n with densification_gen := rm.dens_gen })
  else rm

/-- The pruning phase of `Roadmap::updateAdjacency` (MultiGraspRoadmap.cpp
lines 273-282): incident edges that are evaluated with infinite base cost are
erased from the adjacency map of the updated node (and of it only). -/
def Roadmap.adjacencyPrunePhase (rm1 : Roadmap) (uid : ℕ) : Roadmap :=
  match lookupA rm1.nodes uid with
  | none => rm1
  | some node1 =>
      let keep := node1.edges.filter (fun pr =>
        match lookupA rm1.edge_store pr.2 with
        | some e => ¬(e.base_evaluated = true ∧ e.base_cost = none)
        | none => true)
      modifyNode rm1 uid (fun n => { n with edges := keep })

/-- `Roadmap::updateAdjacency` (MultiGraspRoadmap.cpp lines 251-283).  The
nearest-neighbor radius query `_nn.nearestR(node, r, neighbors)` involves the
transcendental PRM* radius and is therefore abstracted by the explicit
`neighbors` argument; the claims settled here hold for every value of it. -/
def Roadmap.updateAdjacency (rm : Roadmap) (neighbors : List ℕ) (uid : ℕ) : Roadmap :=
  match lookupA rm.nodes uid with
  | none => rm
  | some node =>
      (rm.adjacencyInsertPhase neighbors uid node).adjacencyPrunePhase uid

/-! ## Goal set, grasps, and the multi-grasp goal distance -/

/-- `MultiGraspMP::Goal`: identifier, grasp reference, configuration and
quality. -/
structure Goal where
  id : ℕ
  grasp_id : ℕ
  config : Config
  quality : ℚ
deriving DecidableEq

/-- `MultiGraspMP::Grasp`: identifier, object pose relative to the
end-effector and gripper joint values. -/
structure Grasp where
  id : ℕ
  quat : List ℚ
  pos : List ℚ
  gripper_values : List ℚ

/-- The three maps of `MultiGraspGoalSet`: `_goals`, `_goal_id_to_roadmap_id`
and `_roadmap_id_to_goal_id`. -/
structure MultiGraspGoalSet where
  goals : List (ℕ × Goal)
  gid2rid : List (ℕ × ℕ)
  rid2gid : List (ℕ × ℕ)
deriving DecidableEq

/-- The goal set together with the roadmap it is linked to (`_roadmap`). -/
structure PlannerState where
  rm : Roadmap
  gs : MultiGraspGoalSet

/-- `ORSceneInterface::addGrasp` (ORCostsAndValidity.cpp lines 38-46): a
duplicate grasp id raises `std::logic_error`; otherwise the grasp is inserted. -/
def ORSceneInterface.addGrasp (grasps : List (ℕ × Grasp)) (g : Grasp) :
    Except String (List (ℕ × Grasp)) :=
  if containsA grasps g.id then
    .error "New grasp has the same id as a previously added grasp. Can not add new grasp"
  else .ok (insertNoReplace grasps g.id g)

/-- `MultiGraspGoalSet::addGoal` (MultiGraspRoadmap.cpp lines 401-408): the
goal is inserted into `_goals` with `std::map::insert` (which silently keeps an
existing entry), a fresh roadmap node is added unconditionally, and both
cross-mappings are assigned with `operator[]`.  The body contains no throw;
the single `assert(new_node)` always holds because `addNode` returns the fresh
node. -/
def MultiGraspGoalSet.addGoal (st : PlannerState) (goal : Goal) :
    Except String PlannerState :=
  let goals1 := insertNoReplace st.gs.goals goal.id goal
  let res := st.rm.addNode goal.config
  .ok { rm := res.1
        gs := { goals := goals1
                gid2rid := setA st.gs.gid2rid goal.id res.2
                rid2gid := setA st.gs.rid2gid res.2 goal.id } }

/-- `MultiGraspGoalSet::removeGoal` (MultiGraspRoadmap.cpp lines 419-435): a
present goal is erased from all three maps; an absent goal is a no-op.  The
`assert` statements on the cross-mapping lookups are modelled as errors. -/
def MultiGraspGoalSet.removeGoal (gs : MultiGraspGoalSet) (gid : ℕ) :
    Except String MultiGraspGoalSet :=
  match lookupA gs.goals gid with
  | none => .ok gs
  | some _ =>
      let gs1 := { gs with goals := eraseA gs.goals gid }
      match lookupA gs1.gid2rid gid with
      | none => .error "assertion gid2rid_iter != end failed"
      | some rid =>
          let gs2 := { gs1 with gid2rid := eraseA gs1.gid2rid gid }
          match lookupA gs2.rid2gid rid with
          | none => .error "assertion rid2gid_iter != end failed"
          | some gid2 =>
              if gid2 = gid then .ok { gs2 with rid2gid := eraseA gs2.rid2gid rid }
              else .error "assertion rid2gid_iter second == gid failed"

/-- `MultiGraspGoalSet::removeGoals` (MultiGraspRoadmap.cpp lines 437-442):
remove each listed goal in order. -/
def MultiGraspGoalSet.removeGoals (gs : MultiGraspGoalSet) (ids : List ℕ) :
    Except String MultiGraspGoalSet :=
  ids.foldlM MultiGraspGoalSet.removeGoal gs

/-- `MultiGraspGoalSet::isGoal(NodePtr, grasp_id)` (MultiGraspRoadmap.cpp lines
444-459): grasp-conditional validity is checked first (with its roadmap side
effects); a valid node is a goal iff it is cross-mapped to a goal whose grasp
equals the queried one.  The `_goals.at` throw path is modelled by `none`. -/
def MultiGraspGoalSet.isGoal (st : PlannerState) (uid gid : ℕ) :
    Option Bool × Roadmap :=
  let res := st.rm.isValidGrasp uid gid
  if res.1 then
    match lookupA st.gs.rid2gid uid with
    | none => (some false, res.2)
    | some goal_id =>
        match lookupA st.gs.goals goal_id with
        | none => (none, res.2)
        | some goal => (some (gid = goal.grasp_id), res.2)
  else (some false, res.2)

/-- `MultiGraspGoalSet::getGoals` (MultiGraspRoadmap.cpp lines 480-486): the
list of stored goals. -/
def MultiGraspGoalSet.getGoals (gs : MultiGraspGoalSet) : List Goal :=
  gs.goals.map Prod.snd

/-- The members of `MGGoalDistance` built by its constructor: the scaled
quality weight, the extreme quality, the copied nearest-neighbor containers
(`_all_goals` and the per-grasp map `_goals`), and the path-cost function of
`GoalDistanceFn`. -/
structure MGGoalDistance where
  scaled_lambda : ℚ
  max_quality : ℚ
  all_goals : List Goal
  per_grasp : List (ℕ × List Goal)
  path_cost : Config → Config → ℚ

/-- `MGGoalDistance::MGGoalDistance` (MultiGraspRoadmap.cpp lines 490-526):
the goals are copied out of the goal set; min and max quality are folded (the
C++ seeds with IEEE infinities, which on an empty goal set produce non-finite
garbage that no guarded query ever reads - the empty case here uses the junk
seed 0); the quality normalizer avoids 0; each goal is inserted into the
all-goals container and its per-grasp container. -/
def MGGoalDistance.construct (goal_set : MultiGraspGoalSet)
    (path_cost : Config → Config → ℚ) (lam : ℚ) : MGGoalDistance :=
  let goals := goal_set.getGoals
  let max_q : ℚ :=
    match goals with
    | [] => 0
    | g :: rest => rest.foldl (fun m x => max m x.quality) g.quality
  let min_q : ℚ :=
    match goals with
    | [] => 0
    | g :: rest => rest.foldl (fun m x => min m x.quality) g.quality
  let qn0 := max_q - min_q
  let qn := if qn0 = 0 then 1 else qn0
  { scaled_lambda := lam / qn
    max_quality := max_q
    all_goals := goals
    per_grasp := goals.foldl (fun m g =>
      match lookupA m g.grasp_id with
      | none => insertNoReplace m g.grasp_id [g]
      | some l => setA m g.grasp_id (l ++ [g])) []
    path_cost := path_cost }

/-- Modelled from the spec: `GoalDistanceFn::distance` is declared in the
missing header MultiGraspRoadmap.h; spec section 4.4 defines the goal distance
between a query at quality `q_max` and a goal `g` as
`d(a, g.config) + scaled_lambda * (q_max - g.quality)`. -/
def goalDistance (mgd : MGGoalDistance) (a : Config) (g : Goal) : ℚ :=
  mgd.path_cost a g.config + mgd.scaled_lambda * (mgd.max_quality - g.quality)

/-- Nearest goal of a container under `goalDistance` (the GNAT `nearest`
query). -/
def nearestGoal (mgd : MGGoalDistance) (a : Config) : List Goal → Option Goal
  | [] => none
  | g :: rest =>
      match nearestGoal mgd a rest with
      | none => some g
      | some m => if goalDistance mgd a m < goalDistance mgd a g then some m else some g

/-- `MGGoalDistance::costToGo(a)` (MultiGraspRoadmap.cpp lines 530-540): fails
fast with a logic error when no goals are known, else returns the goal
distance to the nearest goal. -/
def MGGoalDistance.costToGo (mgd : MGGoalDistance) (a : Config) : Except String ℚ :=
  match nearestGoal mgd a mgd.all_goals with
  | none => .error "No goals known. Can not compute cost to go."
  | some nn => .ok (goalDistance mgd a nn)

/-- `MGGoalDistance::costToGo(a, grasp_id)` (MultiGraspRoadmap.cpp lines
542-556): fails when no container or no goal exists for the grasp, else
returns the goal distance to the nearest goal of that grasp. -/
def MGGoalDistance.costToGoGrasp (mgd : MGGoalDistance) (a : Config) (gid : ℕ) :
    Except String ℚ :=
  match lookupA mgd.per_grasp gid with
  | none => .error "Could not find GNAT for the given grasp"
  | some l =>
      match nearestGoal mgd a l with
      | none => .error "No goal known for the given grasp"
      | some nn => .ok (goalDistance mgd a nn)

/-- `MGGoalDistance::getGoalCost` (MultiGraspRoadmap.cpp lines 558-561). -/
def MGGoalDistance.getGoalCost (mgd : MGGoalDistance) (q : ℚ) : ℚ :=
  mgd.scaled_lambda * (mgd.max_quality - q)

/-- A planner state together with a goal-distance heuristic constructed from
its goal set.  `MGGoalDistance` keeps no reference to the goal set: its
constructor copies the goals into its own containers. -/
structure SearchSetup where
  pst : PlannerState
  mgd : MGGoalDistance

/-- Construct the heuristic from the current goal set (the copy happens
here). -/
def SearchSetup.make (pst : PlannerState) (pc : Config → Config → ℚ) (lam : ℚ) :
    SearchSetup :=
  { pst := pst, mgd := MGGoalDistance.construct pst.gs pc lam }

/-- `addGoal` performed on the underlying goal set after the heuristic was
constructed: only the planner state changes. -/
def SearchSetup.addGoal (s : SearchSetup) (g : Goal) : Except String SearchSetup :=
  (MultiGraspGoalSet.addGoal s.pst g).map (fun pst2 => { s with pst := pst2 })

/-- `removeGoals` performed on the underlying goal set after the heuristic was
constructed: only the planner state changes. -/
def SearchSetup.removeGoals (s : SearchSetup) (ids : List ℕ) :
    Except String SearchSetup :=
  (MultiGraspGoalSet.removeGoals s.pst.gs ids).map
    (fun gs2 => { s with pst := { s.pst with gs := gs2 } })

/-! ## LPA* search engine (LPAStar.h)

The priority queue (`boost::heap::fibonacci_heap`) is modelled by its
multiset of contents, a list of vertex/key pairs; `top` returns a least
element under the key order, `decrease` and `increase` become in-place key
updates, and the remove idiom (set key to `(0,0)`, `increase`, `pop`) becomes
removal of the entry.  Each vertex occurs at most once, so the vertex id
serves as the handle. -/

/-- `lpastar::Key`: a pair of doubles compared lexicographically.  The
comparison operator is declared in LPAStar.h line 24; its definition is the
`std::pair` lexicographic order (spec: "Lexicographic pair"). -/
abbrev Key := ICost × ICost

/-- Lexicographic strict order on keys. -/
def keyLt (x y : Key) : Bool :=
  iLt x.1 y.1 || (x.1 = y.1 && iLt x.2 y.2)

/-- `LPAStarAlgorithm::computeKey` (LPAStar.h lines 54-58):
`g_p = min(g, rhs)`, key `(g_p + h, g_p)`. -/
def computeKey (g h rhs : ICost) : Key :=
  let gp := iMin g rhs
  (iAdd gp h, gp)

/-- `LPAStarAlgorithm::VertexData` (LPAStar.h lines 60-73). -/
structure VertexData where
  v : ℕ
  g : ICost
  h : ICost
  rhs : ICost
  p : ℕ
  in_pq : Bool
deriving DecidableEq

/-- `SearchResult` (SearchCommon.h lines 12-22).  The scalar members carry no
initializer in C++; the outer `Option` models their indeterminate value when
no code has assigned them (`none` = uninitialized).  `path` is a
`std::vector`, whose default constructor always produces the empty vector. -/
structure SearchResult where
  solved : Option Bool
  path : List ℕ
  path_cost : Option ICost
  goal_cost : Option ICost
  goal_node : Option ℕ
deriving DecidableEq

/-- The graph interface consumed by `LPAStarAlgorithm` (template parameter
`G`): start vertex, validity, heuristic, successor and predecessor lists, edge
costs (with laziness flag), goal predicate and goal cost. -/
structure SGraph where
  start : ℕ
  validity : ℕ → Bool
  heuristic : ℕ → ICost
  succs : ℕ → List ℕ
  preds : ℕ → List ℕ
  edgeCost : ℕ → ℕ → Bool → ICost
  isGoalV : ℕ → Bool
  goalCost : ℕ → ICost

/-- The members of `LPAStarAlgorithm`: priority queue contents, vertex data
map, accumulated result, best goal key, laziness flag and start vertex. -/
structure LPAState where
  pq : List (ℕ × Key)
  vdata : List (ℕ × VertexData)
  result : SearchResult
  goal_key : Key
  v_start : ℕ
  lazy : Bool

/-- `LPAStarAlgorithm::LPAStarAlgorithm` (LPAStar.h lines 84-103).  When the
start vertex is valid, the start vertex data, queue entry, result and goal key
are initialized.  When it is invalid the entire initialization is skipped:
the queue and vertex map stay empty, the scalar members of `_result` remain
uninitialized (modelled `none`; the `path` vector is empty by its default
constructor), and `_goal_key`, a `std::pair` member, is value-initialized to
`(0.0, 0.0)`. -/
def LPAStarAlgorithm.init (graph : SGraph) (lazyFlag : Bool) : LPAState :=
  if graph.validity graph.start then
    let h0 := graph.heuristic graph.start
    { pq := [(graph.start, computeKey (some 0) h0 (some 0))]
      vdata := [(graph.start,
        { v := graph.start, g := some 0, h := h0, rhs := some 0
          p := graph.start, in_pq := false })]
      result := { solved := some false, path := [], path_cost := some none
                  goal_cost := some none, goal_node := some graph.start }
      goal_key := computeKey none none none
      v_start := graph.start
      lazy := lazyFlag }
  else
    { pq := []
      vdata := []
      result := { solved := none, path := [], path_cost := none
                  goal_cost := none, goal_node := none }
      goal_key := (some 0, some 0)
      v_start := graph.start
      lazy := lazyFlag }

/-- `LPAStarAlgorithm::getVertexData` (LPAStar.h lines 297-306): missing
vertices are materialized with `g = rhs = +∞`, the graph heuristic, and
themselves as parent. -/
def getVD (graph : SGraph) (st : LPAState) (v : ℕ) : VertexData × LPAState :=
  match lookupA st.vdata v with
  | some vd => (vd, st)
  | none =>
      let vd : VertexData :=
        { v := v, g := none, h := graph.heuristic v, rhs := none, p := v, in_pq := false }
      (vd, { st with vdata := insertNoReplace st.vdata v vd })

/-- Replace the key of the queue entry of `v` (the effect of assigning through
the handle followed by `decrease` or `increase`). -/
def pqSetKey (pq : List (ℕ × Key)) (v : ℕ) (k : Key) : List (ℕ × Key) :=
  pq.map (fun p => if p.1 = v then (v, k) else p)

/-- Remove the queue entry of `v` (the set-to-minimum / increase / pop
idiom of LPAStar.h lines 276-278). -/
def pqRemove (pq : List (ℕ × Key)) (v : ℕ) : List (ℕ × Key) :=
  pq.filter (fun p => p.1 ≠ v)

/-- Pop a least element (`_pq.top()` followed by `_pq.pop()`). -/
def pqPopMin : List (ℕ × Key) → Option ((ℕ × Key) × List (ℕ × Key))
  | [] => none
  | x :: xs =>
      match pqPopMin xs with
      | none => some (x, [])
      | some (m, rest) => if keyLt m.2 x.2 then some (m, x :: rest) else some (x, xs)

/-- Part 1 of `LPAStarAlgorithm::updateVertexKey` (LPAStar.h lines 252-280):
update the queue membership of `v`. -/
def updateVertexKeyPQ (st : LPAState) (v : ℕ) (vd : VertexData) : LPAState :=
  if vd.g ≠ vd.rhs ∧ vd.in_pq then
    { st with pq := pqSetKey st.pq v (computeKey vd.g vd.h vd.rhs) }
  else if vd.g ≠ vd.rhs ∧ ¬vd.in_pq then
    { st with
      pq := (v, computeKey vd.g vd.h vd.rhs) :: st.pq
      vdata := setA st.vdata v { vd with in_pq := true } }
  else if vd.g = vd.rhs ∧ vd.in_pq then
    { st with
      pq := pqRemove st.pq v
      vdata := setA st.vdata v { vd with in_pq := false } }
  else st

/-- Part 2 of `LPAStarAlgorithm::updateVertexKey` (LPAStar.h lines 281-294):
on a goal vertex, compute the candidate goal key `computeKey(g, goal_cost,
rhs)` and, when it improves on `_goal_key`, record the goal and whether it is
locally consistent. -/
def updateGoalTracking (graph : SGraph) (st1 : LPAState) (v : ℕ) (vd : VertexData) : LPAState :=
  if graph.isGoalV v then
    let gc := graph.goalCost v
    let cand := computeKey vd.g gc vd.rhs
    if keyLt cand st1.goal_key then
      { st1 with
        goal_key := cand
        result := { st1.result with
          goal_node := some v
          goal_cost := some gc
          path_cost := some vd.g
          solved := some (vd.g = vd.rhs) } }
    else st1
  else st1

/-- `LPAStarAlgorithm::updateVertexKey` (LPAStar.h lines 250-295): both parts
in order, on the current data of `v`. -/
def updateVertexKey (graph : SGraph) (st : LPAState) (v : ℕ) : LPAState :=
  match lookupA st.vdata v with
  | none => st
  | some vd => updateGoalTracking graph (updateVertexKeyPQ st v vd) v vd

/-- `LPAStarAlgorithm::handleCostDecrease` (LPAStar.h lines 235-244).  The
two-argument `getEdgeCost(u, v)` call uses the default laziness of the graph
interface declared in the missing header Graphs.h; it is modelled with the
stored `_lazy` flag, a choice none of the settled claims depends on. -/
def handleCostDecrease (graph : SGraph) (st : LPAState) (uid vid : ℕ) : LPAState :=
  match lookupA st.vdata uid, lookupA st.vdata vid with
  | some ud, some vd =>
      let ec := graph.edgeCost uid vid st.lazy
      if iLt (iAdd ud.g ec) vd.rhs then
        updateVertexKey graph
          { st with vdata := setA st.vdata vid { vd with p := uid, rhs := iAdd ud.g ec } }
          vid
      else st
  | _, _ => st

/-- `LPAStarAlgorithm::handleCostIncrease` (LPAStar.h lines 208-228): when the
parent of `v` is `u`, rescan all predecessors for a cheaper parent, then
update the key of `v`. -/
def handleCostIncrease (graph : SGraph) (st : LPAState) (uid vid : ℕ) : LPAState :=
  match lookupA st.vdata vid with
  | none => st
  | some vd0 =>
      if vd0.p = uid then
        let st1 := (graph.preds vid).foldl (fun acc s =>
          let res := getVD graph acc s
          match lookupA res.2.vdata vid with
          | none => res.2
          | some vdc =>
              let rhs2 := iAdd res.1.g (graph.edgeCost s vid res.2.lazy)
              if iLt rhs2 vdc.rhs then
                { res.2 with vdata := setA res.2.vdata vid { vdc with rhs := rhs2, p := s } }
              else res.2) st
        updateVertexKey graph st1 vid
      else st

/-- The successor loop of the underconsistent branch of
`LPAStarAlgorithm::computeShortestPath` (LPAStar.h lines 175-180).  The C++
loop header reads `for (; iter != end_iter; ++end_iter)`: the body always
re-dereferences the unmoved `iter` while the END iterator is advanced, so the
iterator pair is modelled by indices `i` (never advanced) and `e`
(incremented each pass); advancing `e` beyond the sequence makes the
dereference `*iter` at exhausted positions undefined (`none`).  Fuel bounds
the number of passes; exhausting it (`none`) models non-termination. -/
def underLoop (graph : SGraph) (succs : List ℕ) (uid : ℕ) :
    ℕ → ℕ → ℕ → LPAState → Option LPAState
  | 0, _, _, _ => none
  | fuel + 1, i, e, st =>
      if i = e then some st
      else
        match succs.get? i with
        | none => none
        | some s =>
            let res := getVD graph st s
            let st1 := handleCostIncrease graph res.2 uid s
            underLoop graph succs uid fuel i (e + 1) st1

/-- The main loop of `LPAStarAlgorithm::computeShortestPath` (LPAStar.h lines
151-183).  The C++ guard evaluates `_pq.top()` before `_pq.empty()`; on an
empty queue that call is undefined behavior, after which the conjunct
`not _pq.empty()` exits the loop, modelled here by exiting when the queue is
empty.  Fuel bounds the number of iterations; `none` models
non-termination. -/
def cspLoop (graph : SGraph) : ℕ → LPAState → Option LPAState
  | 0, _ => none
  | fuel + 1, st =>
      match pqPopMin st.pq with
      | none => some st
      | some ((v, k), rest) =>
          if keyLt k st.goal_key || !(st.result.solved = some true) then
            let st1 := { st with pq := rest }
            let res := getVD graph st1 v
            if iLt res.1.rhs res.1.g then
              let st3 := { res.2 with vdata := setA res.2.vdata v { res.1 with g := res.1.rhs } }
              let st4 := updateVertexKey graph st3 v
              let st5 := (graph.succs v).foldl (fun acc s =>
                let r2 := getVD graph acc s
                handleCostDecrease graph r2.2 v s) st4
              cspLoop graph fuel st5
            else
              let st3 := { res.2 with vdata := setA res.2.vdata v { res.1 with g := none } }
              match underLoop graph (graph.succs v) v (fuel + 1) 0 (graph.succs v).length st3 with
              | none => none
              | some st4 => cspLoop graph fuel (updateVertexKey graph st4 v)
          else some st

/-- `extractPath` (SearchCommon.h lines 33-44): walk parent pointers from the
goal node back to the start, then reverse.  Fuel bounds the walk. -/
def extractPathFuel (vdata : List (ℕ × VertexData)) (v_start : ℕ) :
    ℕ → ℕ → List ℕ → Option (List ℕ)
  | 0, _, _ => none
  | fuel + 1, v, acc =>
      if v = v_start then some (List.reverse (v_start :: acc))
      else
        match lookupA vdata v with
        | none => none
        | some vd => extractPathFuel vdata v_start fuel vd.p (v :: acc)

/-- `LPAStarAlgorithm::computeShortestPath` (LPAStar.h lines 142-191): run the
main loop, copy `_result`, and extract the path when solved. -/
def computeShortestPathFuel (graph : SGraph) (fuel : ℕ) (st : LPAState) :
    Option (SearchResult × LPAState) :=
  match cspLoop graph fuel st with
  | none => none
  | some st2 =>
      let res := st2.result
      if res.solved = some true then
        match res.goal_node with
        | none => none
        | some gn =>
            match extractPathFuel st2.vdata st2.v_start fuel gn [] with
            | none => none
            | some p => some ({ res with path := p }, st2)
      else some (res, st2)

/-! ## Concrete instances used by the counterexamples and witnesses -/

/-- The one-dimensional Euclidean distance: for single-joint configurations
the norm `‖b - a‖` is the rational `|b0 - a0|`. -/
def dist1 (a b : Config) : ℚ := |b.headD 0 - a.headD 0|

/-- A one-dimensional oracle whose point cost is the constant `1/2` (a legal
positive clearance-derived cost) and where everything is valid. -/
def ssHalf : StateSpace :=
  { dist := dist1
    validB := fun _ => true
    validG := fun _ _ => true
    cost := fun _ => some (1 / 2)
    costG := fun _ _ => some (1 / 2) }

/-- A trivial oracle used where the oracle values are irrelevant. -/
def ssTriv : StateSpace :=
  { dist := fun _ _ => 0
    validB := fun _ => true
    validG := fun _ _ => true
    cost := fun _ => some 1
    costG := fun _ _ => some 1 }

/-- An oracle whose base validity check always fails. -/
def ssInvalid : StateSpace :=
  { ssTriv with validB := fun _ => false }

/-- A one-dimensional oracle with constant point cost `2` (everywhere at
least `1`). -/
def ssTwo : StateSpace :=
  { dist := dist1
    validB := fun _ => true
    validG := fun _ _ => true
    cost := fun _ => some 2
    costG := fun _ _ => some 2 }

/-- The edge between the nodes at `0` and `1`: unevaluated, seeded with the
lower bound `1`. -/
def edgeC1 : REdge :=
  { node_a := 0, node_b := 1, base_cost := some 1
    base_evaluated := false, conditional_costs := [] }

/-- The node at configuration `[0]`. -/
def nodeC1a : RNode :=
  { uid := 0, config := [0], initialized := true, conditional_validity := []
    edges := [(1, 0)], densification_gen := 0 }

/-- The node at configuration `[1]`. -/
def nodeC1b : RNode :=
  { uid := 1, config := [1], initialized := true, conditional_validity := []
    edges := [(0, 0)], densification_gen := 0 }

/-- Roadmap for the C1 counterexample: two nodes at `0` and `1` joined by
`edgeC1`; integrator step `1`; point cost constantly `1/2`. -/
def rmC1 : Roadmap :=
  { ss := ssHalf
    step := 1
    nodes := [(0, nodeC1a), (1, nodeC1b)]
    nn := [0, 1]
    edge_store := [(0, edgeC1)]
    node_counter := 2
    edge_counter := 1
    dens_gen := 0 }

/-- Roadmap for the C1 witness: as `rmC1` but with point cost constantly `2`. -/
def rmC1W : Roadmap := { rmC1 with ss := ssTwo }

/-- Roadmap for the C5 counterexample: two nodes joined by one edge that is
evaluated with infinite base cost (a dead edge); both nodes are at the
current densification generation. -/
def rmC5 : Roadmap :=
  { ss := ssTriv
    step := 1
    nodes :=
      [(0, { uid := 0, config := [0], initialized := true, conditional_validity := []
             edges := [(1, 0)], densification_gen := 0 }),
       (1, { uid := 1, config := [1], initialized := true, conditional_validity := []
             edges := [(0, 0)], densification_gen := 0 })]
    nn := [0, 1]
    edge_store := [(0, { node_a := 0, node_b := 1, base_cost := none
                         base_evaluated := true, conditional_costs := [] })]
    node_counter := 2
    edge_counter := 1
    dens_gen := 0 }

/-- A live (unevaluated) edge between nodes `0` and `2`. -/
def edgeAliveC5 : REdge :=
  { node_a := 0, node_b := 2, base_cost := some 1
    base_evaluated := false, conditional_costs := [] }

/-- Roadmap for the C5 witness: node `0` has one dead incident edge (id `0`,
to node `1`) and one live incident edge (id `1`, to node `2`). -/
def rmC5W : Roadmap :=
  { ss := ssTriv
    step := 1
    nodes :=
      [(0, { uid := 0, config := [0], initialized := true, conditional_validity := []
             edges := [(1, 0), (2, 1)], densification_gen := 0 }),
       (1, { uid := 1, config := [1], initialized := true, conditional_validity := []
             edges := [(0, 0)], densification_gen := 0 }),
       (2, { uid := 2, config := [2], initialized := true, conditional_validity := []
             edges := [(0, 1)], densification_gen := 0 })]
    nn := [0, 1, 2]
    edge_store := [(0, { node_a := 0, node_b := 1, base_cost := none
                         base_evaluated := true, conditional_costs := [] }),
                   (1, edgeAliveC5)]
    node_counter := 3
    edge_counter := 2
    dens_gen := 0 }

/-- The uninitialized node of the C9 witness. -/
def nodeC9 : RNode :=
  { uid := 0, config := [0], initialized := false, conditional_validity := []
    edges := [(7, 4)], densification_gen := 0 }

/-- The incident edge of the C9 witness. -/
def edgeC9 : REdge :=
  { node_a := 0, node_b := 7, base_cost := some 1
    base_evaluated := false, conditional_costs := [] }

/-- Roadmap for the C9 witness: one uninitialized node with one incident edge,
under an oracle that reports its configuration base-invalid. -/
def rmC9 : Roadmap :=
  { ss := ssInvalid
    step := 1
    nodes := [(0, nodeC9)]
    nn := [0]
    edge_store := [(4, edgeC9)]
    node_counter := 8
    edge_counter := 5
    dens_gen := 0 }

/-- A goal with id 5 (the resident one). -/
def goal5a : Goal := { id := 5, grasp_id := 0, config := [0], quality := 0 }

/-- A different goal carrying the same id 5 (the duplicate insert). -/
def goal5b : Goal := { id := 5, grasp_id := 1, config := [1], quality := 1 }

/-- A goal with the fresh id 6. -/
def goal6 : Goal := { id := 6, grasp_id := 0, config := [2], quality := 0 }

/-- Planner state holding the goal with id 5, cross-linked to roadmap node 0. -/
def pstC7 : PlannerState :=
  { rm := { ss := ssTriv, step := 1
            nodes := [(0, { uid := 0, config := [0], initialized := true
                            conditional_validity := [], edges := [], densification_gen := 0 })]
            nn := [0]
            edge_store := []
            node_counter := 3, edge_counter := 0, dens_gen := 0 }
    gs := { goals := [(5, goal5a)], gid2rid := [(5, 0)], rid2gid := [(0, 5)] } }

/-- Planner state for the C9 witness, with roadmap node 0 cross-linked to the
goal with id 5. -/
def pstC9 : PlannerState :=
  { rm := rmC9
    gs := { goals := [(5, goal5a)], gid2rid := [(5, 0)], rid2gid := [(0, 5)] } }

/-- Graph for the C2 theorem: a valid start vertex `0` with the single
successor `1`; no goals. -/
def graphC2 : SGraph :=
  { start := 0
    validity := fun _ => true
    heuristic := fun _ => some 0
    succs := fun v => if v = 0 then [1] else []
    preds := fun _ => []
    edgeCost := fun _ _ _ => some 1
    isGoalV := fun _ => false
    goalCost := fun _ => none }

/-- The start vertex data of the C2 run. -/
def vdC2 : VertexData :=
  { v := 0, g := some 0, h := some 0, rhs := some 0, p := 0, in_pq := false }

/-- The C2 run state at entry of the underconsistent successor loop: the
start vertex has been popped (queue empty) and its `g` set to `+∞`. -/
def stC2a : LPAState :=
  { pq := []
    vdata := setA [(0, vdC2)] 0 { vdC2 with g := none }
    result := { solved := some false, path := [], path_cost := some none
                goal_cost := some none, goal_node := some 0 }
    goal_key := computeKey none none none
    v_start := 0
    lazy := false }

/-- Graph for the C3 counterexample: vertex `7` is a goal with goal cost `1`. -/
def graphC3 : SGraph :=
  { start := 0
    validity := fun _ => true
    heuristic := fun _ => some 2
    succs := fun _ => []
    preds := fun _ => []
    edgeCost := fun _ _ _ => some 1
    isGoalV := fun v => v == 7
    goalCost := fun _ => some 1 }

/-- Vertex data for the C3 counterexample: overconsistent goal vertex with
`g = 5`, `rhs = 3`. -/
def vd7 : VertexData :=
  { v := 7, g := some 5, h := some 2, rhs := some 3, p := 7, in_pq := false }

/-- LPA* state for the C3 counterexample. -/
def stC3 : LPAState :=
  { pq := []
    vdata := [(7, vd7)]
    result := { solved := some false, path := [], path_cost := some none
                goal_cost := some none, goal_node := some 0 }
    goal_key := (none, none)
    v_start := 0
    lazy := false }

/-- Graph for the C4 witness: its start vertex is invalid. -/
def graphC4 : SGraph :=
  { start := 0
    validity := fun _ => false
    heuristic := fun _ => some 0
    succs := fun _ => []
    preds := fun _ => []
    edgeCost := fun _ _ _ => none
    isGoalV := fun _ => false
    goalCost := fun _ => none }

/-! ## Supporting lemmas -/

theorem lookupA_eraseA_self {α : Type} (l : List (ℕ × α)) (key : ℕ) :
    lookupA (eraseA l key) key = none := by
  induction l with
  | nil => rfl
  | cons hd tl ih =>
      by_cases h : hd.1 = key
      · simpa [eraseA, h] using ih
      · simpa [eraseA, lookupA, h] using ih

theorem eraseA_of_not_contains {α : Type} (l : List (ℕ × α)) (key : ℕ)
    (h : containsA l key = false) : eraseA l key = l := by
  induction l with
  | nil => rfl
  | cons hd tl ih =>
      by_cases hk : hd.1 = key
      · simp [containsA, lookupA, hk] at h
      · have h' : containsA tl key = false := by
          simpa [containsA, lookupA, hk] using h
        simp [eraseA] at ih ⊢
        exact ⟨hk, ih h'⟩

theorem setA_of_not_contains {α : Type} (l : List (ℕ × α)) (key : ℕ) (v : α)
    (h : containsA l key = false) : setA l key v = (key, v) :: l := by
  simp [setA, h]

theorem lookupA_cons_self {α : Type} (l : List (ℕ × α)) (key : ℕ) (v : α) :
    lookupA ((key, v) :: l) key = some v := by
  simp [lookupA]

theorem lookupA_map_replace {α : Type} (l : List (ℕ × α)) (key : ℕ) (v : α)
    (h : containsA l key = true) :
    lookupA (l.map (fun p => if p.1 = key then (key, v) else p)) key = some v := by
  induction l with
  | nil => simp [containsA, lookupA] at h
  | cons hd tl ih =>
      obtain ⟨k1, v1⟩ := hd
      by_cases hk : k1 = key
      · subst hk
        have hhd : (if (k1, v1).1 = k1 then (k1, v) else (k1, v1)) = (k1, v) := if_pos rfl
        rw [List.map_cons, hhd]
        simp [lookupA]
      · have h' : containsA tl key = true := by simpa [containsA, lookupA, hk] using h
        have hhd : (if (k1, v1).1 = key then (key, v) else (k1, v1)) = (k1, v1) := by
          simp [hk]
        rw [List.map_cons, hhd]
        simpa [lookupA, hk] using ih h'

theorem lookupA_setA_self {α : Type} (l : List (ℕ × α)) (key : ℕ) (v : α) :
    lookupA (setA l key v) key = some v := by
  unfold setA
  by_cases h : containsA l key = true
  · rw [if_pos h]
    exact lookupA_map_replace l key v h
  · rw [if_neg h]
    simp [lookupA]

theorem cppCeil_natCast (n : ℕ) : cppCeil (n : ℚ) = n := by
  simp [cppCeil]

theorem le_cppCeil (q : ℚ) (hq : 0 ≤ q) : q ≤ (cppCeil q : ℚ) := by
  have hd : 0 < q.den := q.den_pos
  have hn : 0 ≤ q.num := Rat.num_nonneg.mpr hq
  set a : ℕ := q.num.toNat with ha
  set d : ℕ := q.den with hdd
  have hna : (q.num : ℤ) = (a : ℤ) := by
    simp [ha, Int.toNat_of_nonneg hn]
  -- a ≤ ((a + d - 1) / d) * d
  have key : a ≤ ((a + d - 1) / d) * d := by
    have hdm := Nat.div_add_mod (a + d - 1) d
    have hmod : (a + d - 1) % d < d := Nat.mod_lt _ hd
    have hcomm : (a + d - 1) / d * d = d * ((a + d - 1) / d) := Nat.mul_comm _ _
    omega
  -- now transfer to ℚ: q = a / d ≤ cppCeil q
  have hq_eq : q = (a : ℚ) / (d : ℚ) := by
    conv_lhs => rw [← Rat.num_div_den q]
    rw [hna, hdd]
    push_cast
    ring
  have hkey' : (a : ℚ) ≤ ((cppCeil q : ℕ) : ℚ) * (d : ℚ) := by
    have : ((a : ℕ) : ℚ) ≤ (((a + d - 1) / d * d : ℕ) : ℚ) := by exact_mod_cast key
    simpa [cppCeil, ha, hdd, Nat.cast_mul] using this
  have hdpos : (0 : ℚ) < (d : ℚ) := by exact_mod_cast hd
  have hqd : q * (d : ℚ) = (a : ℚ) := by
    rw [hq_eq]
    field_simp
  have hfin : q * (d : ℚ) ≤ ((cppCeil q : ℕ) : ℚ) * (d : ℚ) := by
    rw [hqd]
    exact hkey'
  exact (mul_le_mul_right hdpos).mp hfin

theorem cppCeil_eq (q : ℚ) (n : ℕ) (hq : 0 < q) (h1 : (n : ℚ) - 1 < q)
    (h2 : q ≤ (n : ℚ)) : cppCeil q = n := by
  have hd : 0 < q.den := q.den_pos
  have hn : 0 ≤ q.num := Rat.num_nonneg.mpr hq.le
  set a : ℕ := q.num.toNat with ha
  set d : ℕ := q.den with hdd
  have hna : (q.num : ℤ) = (a : ℤ) := by simp [ha, Int.toNat_of_nonneg hn]
  have hq_eq : q = (a : ℚ) / (d : ℚ) := by
    conv_lhs => rw [← Rat.num_div_den q]
    rw [hna, hdd]
    push_cast
    ring
  have hdpos : (0 : ℚ) < (d : ℚ) := by exact_mod_cast hd
  have hn1 : 1 ≤ n := by
    by_contra hcon
    push_neg at hcon
    interval_cases n
    · simp at h2
      exact absurd (lt_of_lt_of_le hq h2) (by norm_num)
  have hup : a ≤ n * d := by
    have : (a : ℚ) / (d : ℚ) ≤ (n : ℚ) := hq_eq ▸ h2
    rw [div_le_iff₀ hdpos] at this
    exact_mod_cast this
  have hlow : n * d - d < a := by
    have : ((n : ℚ) - 1) < (a : ℚ) / (d : ℚ) := hq_eq ▸ h1
    rw [lt_div_iff₀ hdpos] at this
    have h' : ((n : ℚ) - 1) * d = (((n - 1) * d : ℕ) : ℚ) := by
      push_cast [hn1]
      ring
    rw [h'] at this
    have h2' : (n - 1) * d < a := by exact_mod_cast this
    have h3' : (n - 1) * d = n * d - 1 * d := Nat.sub_mul n 1 d
    omega
  show (a + d - 1) / d = n
  have hlower : n ≤ (a + d - 1) / d := by
    rw [Nat.le_div_iff_mul_le hd]
    omega
  have hupper : (a + d - 1) / d < n + 1 := by
    rw [Nat.div_lt_iff_lt_mul hd]
    have hx : (n + 1) * d = n * d + d := by ring
    omega
  omega

theorem orLoop_eq_ieccLoop (fn : Config → ICost) (a b : Config) (N : ℕ) (nrm : ℚ)
    (hnrm : nrm = (N : ℚ) * ORStepSize) :
    ∀ (r t : ℕ) (acc : ℚ), t + r = N →
      orLoop fn a b nrm t r acc =
        ieccLoop fn a b nrm ORStepSize r ((t : ℚ) * ORStepSize) acc := by
  intro r
  induction r with
  | zero => intro t acc ht; rfl
  | succ r ih =>
      intro t acc ht
      have hstep : (0 : ℚ) < ORStepSize := by norm_num [ORStepSize]
      have htN : t < N := by omega
      have hNq : ((t : ℚ) + 1) ≤ (N : ℚ) := by exact_mod_cast htN
      have hN1 : (1 : ℚ) ≤ (N : ℚ) := by exact_mod_cast (by omega : 1 ≤ N)
      have hnrm_pos : 0 < nrm := by
        rw [hnrm]
        nlinarith
      have hsample : orSample a b nrm ORStepSize t = ieccSample a b nrm ((t : ℚ) * ORStepSize) := by
        unfold orSample ieccSample
        congr 1
        funext ai bi
        have hle1 : (t : ℚ) * ORStepSize / nrm ≤ 1 := by
          rw [div_le_one hnrm_pos, hnrm]
          nlinarith
        rw [min_eq_left hle1]
        field_simp
      have hw : min ORStepSize (nrm - (t : ℚ) * ORStepSize) = ORStepSize := by
        apply min_eq_left
        rw [hnrm]
        nlinarith
      show orLoop fn a b nrm t (r + 1) acc = _
      rw [orLoop, ieccLoop, hsample, hw]
      cases hfq : fn (ieccSample a b nrm ((t : ℚ) * ORStepSize)) with
      | none => rfl
      | some dc =>
          have hprog : (t : ℚ) * ORStepSize + ORStepSize = ((t + 1 : ℕ) : ℚ) * ORStepSize := by
            push_cast
            ring
          rw [hprog]
          exact ih (t + 1) (acc + dc * ORStepSize) (by omega)

theorem ieccLoop_lower_bound (fn : Config → ICost) (a b : Config) (nrm h : ℚ)
    (hh : 0 < h) (hfn : ∀ q c, fn q = some c → 1 ≤ c) :
    ∀ (fuel : ℕ) (progress acc : ℚ), progress ≤ nrm →
      nrm - progress ≤ (fuel : ℚ) * h →
      ∀ c, ieccLoop fn a b nrm h fuel progress acc = some c →
        acc + (nrm - progress) ≤ c := by
  intro fuel
  induction fuel with
  | zero =>
      intro progress acc hple hbound c heq
      simp only [ieccLoop, Option.some.injEq] at heq
      push_cast at hbound
      subst heq
      linarith
  | succ fuel ih =>
      intro progress acc hple hbound c heq
      simp only [ieccLoop] at heq
      cases hfq : fn (ieccSample a b nrm progress) with
      | none => rw [hfq] at heq; exact absurd heq (by simp)
      | some dc =>
          rw [hfq] at heq
          have hdc := hfn _ _ hfq
          set s := min h (nrm - progress) with hs
          have hs_nonneg : 0 ≤ s := le_min hh.le (by linarith)
          have hs_le : s ≤ nrm - progress := min_le_right _ _
          have h1 : progress + s ≤ nrm := by linarith
          have h2 : nrm - (progress + s) ≤ (fuel : ℚ) * h := by
            push_cast at hbound
            rcases le_or_lt h (nrm - progress) with hcase | hcase
            · have hsh : s = h := by rw [hs]; exact min_eq_left hcase
              rw [hsh]
              linarith
            · have hsh : s = nrm - progress := by rw [hs]; exact min_eq_right hcase.le
              rw [hsh]
              have hfh : (0 : ℚ) ≤ (fuel : ℚ) * h := by positivity
              linarith
          have h3 := ih (progress + s) (acc + dc * s) h1 h2 c heq
          have hds : s ≤ dc * s := le_mul_of_one_le_left hs_nonneg hdc
          linarith

theorem integrateCosts_ge_nrm (fn : Config → ICost) (a b : Config) (nrm h : ℚ)
    (hh : 0 < h) (hnrm : 0 ≤ nrm)
    (hfn : ∀ q c, fn q = some c → 1 ≤ c) :
    ∀ c, IntegralEdgeCostComputer.integrateCosts h a b nrm fn = some c → nrm ≤ c := by
  intro c hc
  unfold IntegralEdgeCostComputer.integrateCosts at hc
  by_cases h0 : nrm = 0
  · rw [if_pos h0, Option.some.injEq] at hc
    rw [h0, ← hc]
  · rw [if_neg h0] at hc
    have hql : 0 ≤ nrm / h := by positivity
    have hceil : nrm / h ≤ (cppCeil (nrm / h) : ℚ) := le_cppCeil _ hql
    have hbound : nrm - 0 ≤ (cppCeil (nrm / h) : ℚ) * h := by
      rw [sub_zero]
      calc nrm = (nrm / h) * h := by field_simp
        _ ≤ (cppCeil (nrm / h) : ℚ) * h := mul_le_mul_of_nonneg_right hceil hh.le
    have h4 := ieccLoop_lower_bound fn a b nrm h hh hfn (cppCeil (nrm / h)) 0 0 hnrm
      (by simpa using hbound) c hc
    simpa using h4

theorem lookupA_map_modify {α : Type} (l : List (ℕ × α)) (key : ℕ) (f : α → α) :
    lookupA (l.map (fun p => if p.1 = key then (p.1, f p.2) else p)) key
      = (lookupA l key).map f := by
  induction l with
  | nil => rfl
  | cons hd tl ih =>
      obtain ⟨k1, v1⟩ := hd
      by_cases hk : k1 = key
      · subst hk
        have hhd : (if (k1, v1).1 = k1 then ((k1, v1).1, f (k1, v1).2) else (k1, v1))
            = (k1, f v1) := if_pos rfl
        rw [List.map_cons, hhd]
        simp [lookupA]
      · have hhd : (if (k1, v1).1 = key then ((k1, v1).1, f (k1, v1).2) else (k1, v1))
            = (k1, v1) := by simp [hk]
        rw [List.map_cons, hhd]
        simpa [lookupA, hk] using ih

theorem lookupA_modifyNode_self (rm : Roadmap) (uid : ℕ) (f : RNode → RNode) :
    lookupA (modifyNode rm uid f).nodes uid = (lookupA rm.nodes uid).map f :=
  lookupA_map_modify rm.nodes uid f

theorem adjacencyPrunePhase_edge_store (rm1 : Roadmap) (uid : ℕ) :
    (rm1.adjacencyPrunePhase uid).edge_store = rm1.edge_store := by
  unfold Roadmap.adjacencyPrunePhase
  cases lookupA rm1.nodes uid <;> rfl

theorem adjacencyPrunePhase_nodes_self (rm1 : Roadmap) (uid : ℕ) (node1 : RNode)
    (hm : lookupA rm1.nodes uid = some node1) :
    lookupA (rm1.adjacencyPrunePhase uid).nodes uid =
      some { node1 with edges := node1.edges.filter (fun pr =>
        match lookupA rm1.edge_store pr.2 with
        | some e => ¬(e.base_evaluated = true ∧ e.base_cost = none)
        | none => true) } := by
  unfold Roadmap.adjacencyPrunePhase
  rw [hm]
  calc lookupA (modifyNode rm1 uid (fun n => { n with edges := node1.edges.filter (fun pr =>
          match lookupA rm1.edge_store pr.2 with
          | some e => ¬(e.base_evaluated = true ∧ e.base_cost = none)
          | none => true) })).nodes uid
      = (lookupA rm1.nodes uid).map (fun n => { n with edges := node1.edges.filter (fun pr =>
          match lookupA rm1.edge_store pr.2 with
          | some e => ¬(e.base_evaluated = true ∧ e.base_cost = none)
          | none => true) }) := lookupA_modifyNode_self rm1 uid _
    _ = _ := by rw [hm]; rfl

theorem eraseA_cons_self {α : Type} (l : List (ℕ × α)) (key : ℕ) (v : α) :
    eraseA ((key, v) :: l) key = eraseA l key := by
  simp [eraseA]

theorem removeGoal_cons (goals : List (ℕ × Goal)) (g2r r2g : List (ℕ × ℕ))
    (g : Goal) (uid : ℕ)
    (hg : containsA goals g.id = false)
    (h2 : containsA g2r g.id = false)
    (h3 : containsA r2g uid = false) :
    MultiGraspGoalSet.removeGoal
      { goals := (g.id, g) :: goals
        gid2rid := (g.id, uid) :: g2r
        rid2gid := (uid, g.id) :: r2g } g.id =
      .ok { goals := goals, gid2rid := g2r, rid2gid := r2g } := by
  have e1 : eraseA ((g.id, g) :: goals) g.id = goals := by
    rw [eraseA_cons_self, eraseA_of_not_contains _ _ hg]
  have e2 : eraseA ((g.id, uid) :: g2r) g.id = g2r := by
    rw [eraseA_cons_self, eraseA_of_not_contains _ _ h2]
  have e3 : eraseA ((uid, g.id) :: r2g) uid = r2g := by
    rw [eraseA_cons_self, eraseA_of_not_contains _ _ h3]
  unfold MultiGraspGoalSet.removeGoal
  simp [lookupA_cons_self, e1, e2, e3]

theorem lookupA_map_modify_ne {α : Type} (l : List (ℕ × α)) (key k : ℕ) (f : α → α)
    (hne : k ≠ key) :
    lookupA (l.map (fun p => if p.1 = key then (p.1, f p.2) else p)) k = lookupA l k := by
  induction l with
  | nil => rfl
  | cons hd tl ih =>
      obtain ⟨k1, v1⟩ := hd
      by_cases hk : k1 = key
      · subst hk
        have hhd : (if (k1, v1).1 = k1 then ((k1, v1).1, f (k1, v1).2) else (k1, v1))
            = (k1, f v1) := if_pos rfl
        rw [List.map_cons, hhd]
        have hkk : ¬(k1 = k) := fun hcon => hne hcon.symm
        simp only [lookupA]
        rw [if_neg hkk, if_neg hkk]
        exact ih
      · have hhd : (if (k1, v1).1 = key then ((k1, v1).1, f (k1, v1).2) else (k1, v1))
            = (k1, v1) := by simp [hk]
        rw [List.map_cons, hhd]
        by_cases hk1 : k1 = k
        · simp [lookupA, hk1]
        · simpa [lookupA, hk1] using ih

theorem killEdgeData_idem (x : Option REdge) :
    (x.map killEdgeData).map killEdgeData = x.map killEdgeData := by
  cases x <;> rfl

theorem lookupA_killEdge_self (store : List (ℕ × REdge)) (eid : ℕ) :
    lookupA (killEdge store eid) eid = (lookupA store eid).map killEdgeData :=
  lookupA_map_modify store eid killEdgeData

theorem lookupA_killEdge_ne (store : List (ℕ × REdge)) (eid k : ℕ) (hne : k ≠ eid) :
    lookupA (killEdge store eid) k = lookupA store k :=
  lookupA_map_modify_ne store eid k killEdgeData hne

theorem lookupA_foldl_killEdge (prs : List (ℕ × ℕ)) (store : List (ℕ × REdge)) (k : ℕ) :
    lookupA (prs.foldl (fun st pr => killEdge st pr.2) store) k =
      if k ∈ prs.map Prod.snd then (lookupA store k).map killEdgeData
      else lookupA store k := by
  induction prs generalizing store with
  | nil => simp
  | cons pr prs ih =>
      rw [List.foldl_cons, ih]
      by_cases hmem : k ∈ prs.map Prod.snd
      · rw [if_pos hmem, if_pos (by simp [hmem])]
        by_cases hk : k = pr.2
        · subst hk
          rw [lookupA_killEdge_self, killEdgeData_idem]
        · rw [lookupA_killEdge_ne _ _ _ hk]
      · rw [if_neg hmem]
        by_cases hk : k = pr.2
        · subst hk
          rw [if_pos (by simp), lookupA_killEdge_self]
        · rw [if_neg (by simp [hk, hmem]), lookupA_killEdge_ne _ _ _ hk]

theorem updateVertexKeyPQ_goal_frame (st : LPAState) (v : ℕ) (vd : VertexData) :
    (updateVertexKeyPQ st v vd).goal_key = st.goal_key ∧
    (updateVertexKeyPQ st v vd).result = st.result := by
  unfold updateVertexKeyPQ
  split
  · exact ⟨rfl, rfl⟩
  · split
    · exact ⟨rfl, rfl⟩
    · split
      · exact ⟨rfl, rfl⟩
      · exact ⟨rfl, rfl⟩

/-! ## Claim theorems -/

/-- C6, corrected claim: the two edge-cost integrators agree in exact real
arithmetic whenever the segment length `‖b - a‖` is an integer multiple of the
step size (in particular both return `0` on a zero-length segment and both
short-circuit on an infinite sampled cost); the common sample points are
`q_k = a + (k h / ‖b - a‖)(b - a)`.  On non-multiples they differ, because
`ORSceneInterface::integrateCosts` weights the final sample by the full step
`h` where `IntegralEdgeCostComputer::integrateCosts` truncates it to
`min(h, ‖b - a‖ - k h)` (see the counterexample). -/
theorem C6_integrators_agree_on_step_multiples (a b : Config) (fn : Config → ICost)
    (N : ℕ) (nrm : ℚ) (hnrm : nrm = (N : ℚ) * ORStepSize) :
    ORSceneInterface.integrateCosts a b nrm fn =
      IntegralEdgeCostComputer.integrateCosts ORStepSize a b nrm fn := by
  rcases Nat.eq_zero_or_pos N with h0 | hpos
  · subst h0
    simp [ORStepSize] at hnrm
    simp [ORSceneInterface.integrateCosts, IntegralEdgeCostComputer.integrateCosts, hnrm]
  · have hN1 : (1 : ℚ) ≤ (N : ℚ) := by exact_mod_cast hpos
    have hstep : (0 : ℚ) < ORStepSize := by norm_num [ORStepSize]
    have hnrm0 : nrm ≠ 0 := by
      rw [hnrm]
      nlinarith
    unfold ORSceneInterface.integrateCosts IntegralEdgeCostComputer.integrateCosts
    rw [if_neg hnrm0, if_neg hnrm0]
    have hdiv : nrm / ORStepSize = (N : ℚ) := by
      rw [hnrm]
      field_simp
    rw [hdiv, cppCeil_natCast]
    have h2 := orLoop_eq_ieccLoop fn a b N nrm hnrm N 0 0 (by omega)
    simpa using h2

/-- C6, witness: the two integrators agree on the segment from `0` to `1/500`,
whose length is two integrator steps, with constant point cost `1`. -/
theorem C6_integrators_agree_witness :
    ORSceneInterface.integrateCosts [0] [1 / 500] (1 / 500) (fun _ => some 1) =
      IntegralEdgeCostComputer.integrateCosts ORStepSize [0] [1 / 500] (1 / 500)
        (fun _ => some 1) :=
  C6_integrators_agree_on_step_multiples [0] [1 / 500] (fun _ => some 1) 2 (1 / 500)
    (by norm_num [ORStepSize])

/-- C6, counterexample: on the segment from `0` to `3/2000` (one and a half
steps of `0.001`) with constant point cost `1`, the OR integrator returns
`2 * 0.001 = 1/500` (a full final step) while the IntegralEdgeCostComputer
returns the truncated `3/2000`; the claim that the two always agree in exact
arithmetic is false. -/
theorem C6_integrators_counterexample :
    ORSceneInterface.integrateCosts [0] [3 / 2000] (3 / 2000) (fun _ => some 1) ≠
      IntegralEdgeCostComputer.integrateCosts ORStepSize [0] [3 / 2000] (3 / 2000)
        (fun _ => some 1) := by
  have hce : cppCeil ((3 / 2000 : ℚ) / ORStepSize) = 2 := by
    apply cppCeil_eq <;> norm_num [ORStepSize]
  have h1 : ORSceneInterface.integrateCosts [0] [3 / 2000] (3 / 2000) (fun _ => some 1) =
      some (1 / 500) := by
    rw [ORSceneInterface.integrateCosts, if_neg (by norm_num), hce]
    norm_num [orLoop, orSample, ORStepSize]
  have h2 : IntegralEdgeCostComputer.integrateCosts ORStepSize [0] [3 / 2000] (3 / 2000)
      (fun _ => some 1) = some (3 / 2000) := by
    rw [IntegralEdgeCostComputer.integrateCosts, if_neg (by norm_num), hce]
    norm_num [ieccLoop, ieccSample, ORStepSize, min_def]
  rw [h1, h2]
  intro hcon
  rw [Option.some.injEq] at hcon
  norm_num at hcon

/-- C1, corrected claim.  (1) At creation (`updateAdjacency`) an edge's
`base_cost` equals the lower bound exactly.  (2) `computeCost` with a grasp id
never changes `base_cost`.  (3) `computeCost` without a grasp id preserves
`base_cost ≥ lower_bound(a, b)` provided every finite point cost returned by
the oracle is at least `1`; without that extra hypothesis the invariant fails
after evaluation (see the counterexample). -/
theorem C1_admissibility_amended :
    (∀ (rm : Roadmap) (a b : RNode),
        (rm.newEdge a b).base_cost =
          some (IntegralEdgeCostComputer.lowerBound rm.ss a.config b.config)) ∧
    (∀ (rm : Roadmap) (eid gid : ℕ) (e : REdge) (res : (Bool × ICost) × Roadmap),
        rm.computeCostGrasp eid e gid = some res →
        lookupA rm.edge_store eid = some e →
        ∃ e2, lookupA res.2.edge_store eid = some e2 ∧ e2.base_cost = e.base_cost) ∧
    (∀ (rm : Roadmap) (eid : ℕ) (e : REdge) (na nb : RNode),
        e.base_evaluated = false →
        lookupA rm.nodes e.node_a = some na →
        lookupA rm.nodes e.node_b = some nb →
        0 < rm.step →
        0 ≤ rm.ss.dist na.config nb.config →
        (∀ q c, rm.ss.cost q = some c → 1 ≤ c) →
        ∃ res, rm.computeCost eid e = some res ∧
          (∀ c, res.1.2 = some c → rm.ss.dist na.config nb.config ≤ c) ∧
          lookupA res.2.edge_store eid =
            some { e with base_cost := res.1.2, base_evaluated := true }) := by
  refine ⟨fun rm a b => rfl, ?_, ?_⟩
  · intro rm eid gid e res hres he
    unfold Roadmap.computeCostGrasp at hres
    by_cases hdead : e.base_evaluated = true ∧ e.base_cost = none
    · rw [if_pos hdead] at hres
      rw [Option.some.injEq] at hres
      exact ⟨e, by rw [← hres]; exact he, rfl⟩
    · rw [if_neg hdead] at hres
      cases hcc : lookupA e.conditional_costs gid with
      | some c =>
          rw [hcc, Option.some.injEq] at hres
          exact ⟨e, by rw [← hres]; exact he, rfl⟩
      | none =>
          rw [hcc] at hres
          cases hna : lookupA rm.nodes e.node_a with
          | none => rw [hna] at hres; cases hres
          | some na =>
              cases hnb : lookupA rm.nodes e.node_b with
              | none => rw [hna, hnb] at hres; cases hres
              | some nb =>
                  rw [hna, hnb, Option.some.injEq] at hres
                  set c2 := IntegralEdgeCostComputer.integrateCosts rm.step na.config nb.config
                    (rm.ss.dist na.config nb.config) (fun q => rm.ss.costG q gid) with hc2
                  refine ⟨{ e with conditional_costs := insertNoReplace e.conditional_costs gid c2 }, ?_, rfl⟩
                  rw [← hres]
                  exact lookupA_setA_self rm.edge_store eid _
  · intro rm eid e na nb hev hna hnb hstep hdist hcost
    unfold Roadmap.computeCost
    rw [if_neg (by simp [hev]), hna, hnb]
    refine ⟨_, rfl, ?_, ?_⟩
    · intro c hc
      exact integrateCosts_ge_nrm rm.ss.cost na.config nb.config
        (rm.ss.dist na.config nb.config) rm.step hstep hdist hcost c hc
    · exact lookupA_setA_self rm.edge_store eid _

/-- C1, witness: on the roadmap `rmC1W` (point cost constantly `2`, at least
`1` everywhere), evaluating the unevaluated edge yields a cost at least the
lower bound `dist([0], [1]) = 1`, and the edge is stored evaluated. -/
theorem C1_admissibility_witness :
    ∃ res, rmC1W.computeCost 0 edgeC1 = some res ∧
      (∀ c, res.1.2 = some c → rmC1W.ss.dist nodeC1a.config nodeC1b.config ≤ c) ∧
      lookupA res.2.edge_store 0 =
        some { edgeC1 with base_cost := res.1.2, base_evaluated := true } := by
  refine C1_admissibility_amended.2.2 rmC1W 0 edgeC1 nodeC1a nodeC1b rfl rfl rfl ?_ ?_ ?_
  · norm_num [rmC1W, rmC1]
  · show (0 : ℚ) ≤ rmC1W.ss.dist nodeC1a.config nodeC1b.config
    simp [rmC1W, rmC1, ssTwo, dist1]
  · intro q c hqc
    have h2 : (2 : ℚ) = c := by simpa [rmC1W, rmC1, ssTwo] using hqc
    rw [← h2]
    norm_num

/-- C1, counterexample: with the legal oracle point cost constantly `1/2`,
evaluating the unevaluated edge between `[0]` and `[1]` stores
`base_cost = 1/2`, strictly below the lower bound
`lower_bound([0], [1]) = 1`; the claimed invariant
`base_cost ≥ lower_bound` does not survive `computeCost`. -/
theorem C1_admissibility_counterexample :
    rmC1.computeCost 0 edgeC1 =
      some ((true, some (1 / 2)),
        { rmC1 with edge_store := setA rmC1.edge_store 0
                      { edgeC1 with base_cost := some (1 / 2), base_evaluated := true } }) ∧
    IntegralEdgeCostComputer.lowerBound rmC1.ss [0] [1] = 1 ∧
    ¬ ((1 : ℚ) ≤ 1 / 2) := by
  have hc1 : cppCeil ((1 : ℚ)) = 1 := by
    rw [show (1 : ℚ) = ((1 : ℕ) : ℚ) by norm_num, cppCeil_natCast]
  have hd : rmC1.ss.dist nodeC1a.config nodeC1b.config = 1 := by
    norm_num [rmC1, ssHalf, dist1, nodeC1a, nodeC1b]
  have hint : IntegralEdgeCostComputer.integrateCosts rmC1.step nodeC1a.config nodeC1b.config
      (rmC1.ss.dist nodeC1a.config nodeC1b.config) rmC1.ss.cost = some (1 / 2) := by
    rw [hd]
    show IntegralEdgeCostComputer.integrateCosts 1 [0] [1] 1 rmC1.ss.cost = some (1 / 2)
    rw [IntegralEdgeCostComputer.integrateCosts, if_neg (by norm_num),
      show (1 : ℚ) / 1 = 1 by norm_num, hc1]
    norm_num [ieccLoop, ieccSample, min_def, rmC1, ssHalf]
  refine ⟨?_, ?_, by norm_num⟩
  · have h0 : rmC1.computeCost 0 edgeC1 =
        some (((IntegralEdgeCostComputer.integrateCosts rmC1.step nodeC1a.config nodeC1b.config
            (rmC1.ss.dist nodeC1a.config nodeC1b.config) rmC1.ss.cost).isSome,
          IntegralEdgeCostComputer.integrateCosts rmC1.step nodeC1a.config nodeC1b.config
            (rmC1.ss.dist nodeC1a.config nodeC1b.config) rmC1.ss.cost),
          { rmC1 with edge_store := setA rmC1.edge_store 0
                        { edgeC1 with
                          base_cost := IntegralEdgeCostComputer.integrateCosts rmC1.step
                            nodeC1a.config nodeC1b.config
                            (rmC1.ss.dist nodeC1a.config nodeC1b.config) rmC1.ss.cost
                          base_evaluated := true } }) := rfl
    rw [h0, hint]
    rfl
  · show IntegralEdgeCostComputer.lowerBound rmC1.ss [0] [1] = 1
    norm_num [IntegralEdgeCostComputer.lowerBound, rmC1, ssHalf, dist1]


/-- C5, corrected claim: after `updateAdjacency(n)` no incident edge that is
evaluated with infinite base cost remains in the adjacency map of the updated
node `n` itself.  The edge is NOT removed from the other endpoint's adjacency
map (see the counterexample): each node prunes only its own map, lazily, on
its own refresh. -/
theorem C5_dead_edge_pruning_amended (rm : Roadmap) (neighbors : List ℕ) (uid : ℕ) :
    ∀ node2, lookupA (rm.updateAdjacency neighbors uid).nodes uid = some node2 →
    ∀ pr, pr ∈ node2.edges → ∀ e,
      lookupA (rm.updateAdjacency neighbors uid).edge_store pr.2 = some e →
      ¬(e.base_evaluated = true ∧ e.base_cost = none) := by
  intro node2 h1 pr hpr e he
  unfold Roadmap.updateAdjacency at h1 he
  cases hn : lookupA rm.nodes uid with
  | none =>
      rw [hn] at h1 he
      have h1x : lookupA rm.nodes uid = some node2 := h1
      rw [hn] at h1x
      cases h1x
  | some node =>
      rw [hn] at h1 he
      have h1x : lookupA ((rm.adjacencyInsertPhase neighbors uid node).adjacencyPrunePhase
          uid).nodes uid = some node2 := h1
      have hex : lookupA ((rm.adjacencyInsertPhase neighbors uid node).adjacencyPrunePhase
          uid).edge_store pr.2 = some e := he
      set rm1 := rm.adjacencyInsertPhase neighbors uid node with hrm1
      rw [adjacencyPrunePhase_edge_store] at hex
      cases hm : lookupA rm1.nodes uid with
      | none =>
          have hid : rm1.adjacencyPrunePhase uid = rm1 := by
            unfold Roadmap.adjacencyPrunePhase
            rw [hm]
          rw [hid, hm] at h1x
          cases h1x
      | some node1 =>
          rw [adjacencyPrunePhase_nodes_self rm1 uid node1 hm, Option.some.injEq] at h1x
          have hedges : node2.edges = node1.edges.filter (fun pr =>
              match lookupA rm1.edge_store pr.2 with
              | some e => ¬(e.base_evaluated = true ∧ e.base_cost = none)
              | none => true) := by
            rw [← h1x]
          rw [hedges, List.mem_filter] at hpr
          have hdec := hpr.2
          rw [hex] at hdec
          have hdec2 : decide (¬(e.base_evaluated = true ∧ e.base_cost = none)) = true := hdec
          exact of_decide_eq_true hdec2

/-- C5, witness: on `rmC5W`, after updating node `0` the surviving incident
edge `(2, 1)` is live. -/
theorem C5_dead_edge_pruning_witness :
    ¬(edgeAliveC5.base_evaluated = true ∧ edgeAliveC5.base_cost = none) :=
  C5_dead_edge_pruning_amended rmC5W [] 0
    { uid := 0, config := [0], initialized := true, conditional_validity := []
      edges := [(2, 1)], densification_gen := 0 }
    (by decide) (2, 1) (by decide) edgeAliveC5 (by decide)

/-- C5, counterexample: on `rmC5` the dead edge (evaluated, infinite base
cost) between nodes `0` and `1` is pruned from the adjacency map of the
updated node `0`, but it remains in the adjacency map of the other endpoint
`1`; the claim that it is absent from both endpoints is false. -/
theorem C5_dead_edge_pruning_counterexample :
    (lookupA (rmC5.updateAdjacency [] 0).nodes 0).map RNode.edges = some [] ∧
    (lookupA (rmC5.updateAdjacency [] 0).nodes 1).map RNode.edges = some [(0, 0)] ∧
    (lookupA (rmC5.updateAdjacency [] 0).edge_store 0).map REdge.base_evaluated = some true ∧
    (lookupA (rmC5.updateAdjacency [] 0).edge_store 0).map REdge.base_cost = some none := by
  refine ⟨?_, ?_, ?_, ?_⟩ <;> decide


/-- C7, corrected claim: `ORSceneInterface::addGrasp` rejects a duplicate
grasp id with a raised logic error, but `MultiGraspGoalSet::addGoal` never
throws: on a duplicate goal id the `std::map::insert` silently keeps the
existing goal while the cross-mappings are redirected to a freshly added
roadmap node. -/
theorem C7_duplicate_id_amended :
    (∀ (grasps : List (ℕ × Grasp)) (g : Grasp), containsA grasps g.id = true →
      ∃ msg, ORSceneInterface.addGrasp grasps g = .error msg) ∧
    (∀ (st : PlannerState) (goal : Goal),
      ∃ st2, MultiGraspGoalSet.addGoal st goal = .ok st2) ∧
    (∀ (st : PlannerState) (goal old : Goal),
      lookupA st.gs.goals goal.id = some old →
      ∃ st2, MultiGraspGoalSet.addGoal st goal = .ok st2 ∧
        lookupA st2.gs.goals goal.id = some old) := by
  refine ⟨?_, ?_, ?_⟩
  · intro grasps g hdup
    unfold ORSceneInterface.addGrasp
    rw [if_pos hdup]
    exact ⟨_, rfl⟩
  · intro st goal
    exact ⟨_, rfl⟩
  · intro st goal old hold
    refine ⟨_, rfl, ?_⟩
    show lookupA (insertNoReplace st.gs.goals goal.id goal) goal.id = some old
    have hc : containsA st.gs.goals goal.id = true := by
      simp [containsA, hold]
    rw [insertNoReplace, if_pos hc]
    exact hold

/-- C7, witness: a duplicate grasp insert errors; the duplicate goal insert
with id 5 on `pstC7` succeeds and keeps the resident goal. -/
theorem C7_duplicate_id_witness :
    (∃ msg, ORSceneInterface.addGrasp
      [(4, { id := 4, quat := [], pos := [], gripper_values := [] })]
      { id := 4, quat := [1], pos := [], gripper_values := [] } = .error msg) ∧
    (∃ st2, MultiGraspGoalSet.addGoal pstC7 goal5b = .ok st2 ∧
      lookupA st2.gs.goals goal5b.id = some goal5a) :=
  ⟨C7_duplicate_id_amended.1 _ _ (by decide),
   C7_duplicate_id_amended.2.2 pstC7 goal5b goal5a (by decide)⟩

/-- C7, counterexample: inserting the goal `goal5b`, whose id 5 is already
present, does NOT fail: `addGoal` returns normally, the goal map still holds
the old goal, and both cross-maps now point at the fresh roadmap node 3.  The
claim that a duplicate goal id raises a logic error is false. -/
theorem C7_duplicate_goal_counterexample :
    ∃ st2, MultiGraspGoalSet.addGoal pstC7 goal5b = .ok st2 ∧
      lookupA st2.gs.goals 5 = some goal5a ∧
      lookupA st2.gs.gid2rid 5 = some 3 ∧
      lookupA st2.gs.rid2gid 3 = some 5 := by
  refine ⟨_, rfl, ?_, ?_, ?_⟩ <;> decide

/-- C8, confirmed claim: for a goal whose id is fresh (not in the goal map nor
in the goal-to-roadmap map) and a roadmap whose cross-linked uids are all
below the node counter, `addGoal` followed by `removeGoals([id])` restores the
goal set (all three maps) exactly. -/
theorem C8_add_remove_restores_goal_set (st : PlannerState) (g : Goal)
    (h1 : containsA st.gs.goals g.id = false)
    (h2 : containsA st.gs.gid2rid g.id = false)
    (h3 : ∀ k, containsA st.gs.rid2gid k = true → k < st.rm.node_counter) :
    ∃ st1, MultiGraspGoalSet.addGoal st g = .ok st1 ∧
      MultiGraspGoalSet.removeGoals st1.gs [g.id] = .ok st.gs := by
  have hc3 : containsA st.gs.rid2gid st.rm.node_counter = false := by
    cases hcon : containsA st.gs.rid2gid st.rm.node_counter with
    | false => rfl
    | true => exact absurd (h3 _ hcon) (lt_irrefl _)
  refine ⟨_, rfl, ?_⟩
  show MultiGraspGoalSet.removeGoals
      { goals := insertNoReplace st.gs.goals g.id g
        gid2rid := setA st.gs.gid2rid g.id st.rm.node_counter
        rid2gid := setA st.gs.rid2gid st.rm.node_counter g.id } [g.id] = .ok st.gs
  have hins : insertNoReplace st.gs.goals g.id g = (g.id, g) :: st.gs.goals := by
    rw [insertNoReplace, if_neg (by simp [h1])]
  rw [hins, setA_of_not_contains _ _ _ h2, setA_of_not_contains _ _ _ hc3]
  unfold MultiGraspGoalSet.removeGoals
  simp only [List.foldlM]
  rw [removeGoal_cons st.gs.goals st.gs.gid2rid st.gs.rid2gid g st.rm.node_counter h1 h2 hc3]
  rfl

/-- C8, witness: adding the fresh goal 6 to `pstC7` and removing it restores
the goal set. -/
theorem C8_add_remove_witness :
    ∃ st1, MultiGraspGoalSet.addGoal pstC7 goal6 = .ok st1 ∧
      MultiGraspGoalSet.removeGoals st1.gs [goal6.id] = .ok pstC7.gs := by
  refine C8_add_remove_restores_goal_set pstC7 goal6 (by decide) (by decide) ?_
  intro k hk
  by_cases hk0 : k = 0
  · subst hk0
    decide
  · exfalso
    simp [pstC7, containsA, lookupA, hk0] at hk
    exact hk0 hk.symm


/-- C9, confirmed claim: `MultiGraspGoalSet::isGoal(node, grasp_id)` is not
read-only.  When the queried node is not yet validity-initialized and the
oracle reports its configuration base-invalid, the call deletes the node from
the roadmap - it disappears from the node map and the nearest-neighbor index,
and every incident edge becomes `base_evaluated = true` with
`base_cost = +∞` - and the call returns false. -/
theorem C9_isGoal_deletes_invalid_node (st : PlannerState) (uid gid : ℕ) (node : RNode)
    (hn : lookupA st.rm.nodes uid = some node)
    (huid : node.uid = uid)
    (hinit : node.initialized = false)
    (hvalid : st.rm.ss.validB node.config = false) :
    MultiGraspGoalSet.isGoal st uid gid = (some false, st.rm.deleteNode node) ∧
    lookupA (st.rm.deleteNode node).nodes uid = none ∧
    uid ∉ (st.rm.deleteNode node).nn ∧
    (∀ pr, pr ∈ node.edges → ∀ e, lookupA st.rm.edge_store pr.2 = some e →
      lookupA (st.rm.deleteNode node).edge_store pr.2 =
        some { e with base_evaluated := true, base_cost := none }) := by
  refine ⟨?_, ?_, ?_, ?_⟩
  · unfold MultiGraspGoalSet.isGoal Roadmap.isValidGrasp Roadmap.isValidBase
    simp [hn, hinit, hvalid]
  · show lookupA (eraseA st.rm.nodes node.uid) uid = none
    rw [huid]
    exact lookupA_eraseA_self st.rm.nodes uid
  · show uid ∉ st.rm.nn.filter (fun x => x ≠ node.uid)
    rw [huid]
    intro hmem
    rw [List.mem_filter] at hmem
    have := hmem.2
    simp at this
  · intro pr hpr e he
    show lookupA (node.edges.foldl (fun st2 pr2 => killEdge st2 pr2.2) st.rm.edge_store)
      pr.2 = some { e with base_evaluated := true, base_cost := none }
    rw [lookupA_foldl_killEdge,
      if_pos (List.mem_map_of_mem Prod.snd hpr), he]
    rfl

/-- C9, witness: on `pstC9` (uninitialized node `0`, base-invalid oracle),
`isGoal(0, 3)` returns false, node `0` leaves the node map and the
nearest-neighbor index, and the incident edge `4` becomes evaluated with
infinite cost. -/
theorem C9_isGoal_deletes_invalid_node_witness :
    MultiGraspGoalSet.isGoal pstC9 0 3 = (some false, pstC9.rm.deleteNode nodeC9) ∧
    lookupA (pstC9.rm.deleteNode nodeC9).nodes 0 = none ∧
    0 ∉ (pstC9.rm.deleteNode nodeC9).nn ∧
    lookupA (pstC9.rm.deleteNode nodeC9).edge_store 4 =
      some { edgeC9 with base_evaluated := true, base_cost := none } := by
  obtain ⟨h1, h2, h3, h4⟩ :=
    C9_isGoal_deletes_invalid_node pstC9 0 3 nodeC9 rfl rfl rfl rfl
  exact ⟨h1, h2, h3, h4 (7, 4) (by decide) edgeC9 rfl⟩


/-- C10, confirmed claim: `MGGoalDistance` copies the goal set into its own
containers at construction (its constructor stores no reference to the goal
set), so `addGoal` and `removeGoals` performed on the underlying
`MultiGraspGoalSet` afterwards change only the planner state: the heuristic
member is untouched and `costToGo` (with or without a grasp) and
`getGoalCost` return the same values as before. -/
theorem C10_goal_distance_frozen_at_construction (s : SearchSetup) (g : Goal)
    (ids : List ℕ) (a : Config) (gid : ℕ) (q : ℚ) :
    (∀ s2, SearchSetup.addGoal s g = .ok s2 →
      s2.mgd = s.mgd ∧
      s2.mgd.costToGo a = s.mgd.costToGo a ∧
      s2.mgd.costToGoGrasp a gid = s.mgd.costToGoGrasp a gid ∧
      s2.mgd.getGoalCost q = s.mgd.getGoalCost q) ∧
    (∀ s2, SearchSetup.removeGoals s ids = .ok s2 →
      s2.mgd = s.mgd ∧
      s2.mgd.costToGo a = s.mgd.costToGo a ∧
      s2.mgd.costToGoGrasp a gid = s.mgd.costToGoGrasp a gid ∧
      s2.mgd.getGoalCost q = s.mgd.getGoalCost q) := by
  constructor
  · intro s2 h
    unfold SearchSetup.addGoal at h
    cases hag : MultiGraspGoalSet.addGoal s.pst g with
    | error msg =>
        rw [hag] at h
        cases h
    | ok pst2 =>
        rw [hag] at h
        have h2 : Except.ok { s with pst := pst2 } = Except.ok s2 := h
        have hs2 : s2.mgd = s.mgd := by
          cases h2
          rfl
        exact ⟨hs2, by rw [hs2], by rw [hs2], by rw [hs2]⟩
  · intro s2 h
    unfold SearchSetup.removeGoals at h
    cases hrg : MultiGraspGoalSet.removeGoals s.pst.gs ids with
    | error msg =>
        rw [hrg] at h
        cases h
    | ok gs2 =>
        rw [hrg] at h
        have h2 : Except.ok { s with pst := { s.pst with gs := gs2 } } = Except.ok s2 := h
        have hs2 : s2.mgd = s.mgd := by
          cases h2
          rfl
        exact ⟨hs2, by rw [hs2], by rw [hs2], by rw [hs2]⟩

/-- C10, witness: on a heuristic constructed from `pstC7`, adding the fresh
goal 6 afterwards changes neither the member nor a `costToGo` value. -/
theorem C10_goal_distance_frozen_witness :
    ∃ s2, SearchSetup.addGoal (SearchSetup.make pstC7 (fun _ _ => 0) 1) goal6 = .ok s2 ∧
      s2.mgd.costToGo [0] = (SearchSetup.make pstC7 (fun _ _ => 0) 1).mgd.costToGo [0] := by
  refine ⟨_, rfl, ?_⟩
  exact ((C10_goal_distance_frozen_at_construction
    (SearchSetup.make pstC7 (fun _ _ => 0) 1) goal6 [] [0] 0 0).1 _ rfl).2.1


/-- C4, code-bug record: when the start configuration is invalid the
`LPAStarAlgorithm` constructor skips its entire initialization block
(LPAStar.h lines 88-102).  The queue and the vertex map are left empty and
`result.path` is empty (the vector default-constructs), so no vertex is ever
expanded, but the scalar members of `_result` - `solved` among them - are
never assigned (modelled `none`): the claimed postcondition
`result.solved = false` is not established, and the caller receives an
indeterminate `solved` flag (the loop guard additionally evaluates
`_pq.top()` on the empty queue).  The final conjunct records that the copied
result is exactly the uninitialized one rather than `solved = false`. -/
theorem C4_invalid_start_uninitialized_result (graph : SGraph) (lazyFlag : Bool)
    (hinv : graph.validity graph.start = false) :
    (LPAStarAlgorithm.init graph lazyFlag).pq = [] ∧
    (LPAStarAlgorithm.init graph lazyFlag).vdata = [] ∧
    (LPAStarAlgorithm.init graph lazyFlag).result.path = [] ∧
    (LPAStarAlgorithm.init graph lazyFlag).result.solved = none ∧
    computeShortestPathFuel graph 1 (LPAStarAlgorithm.init graph lazyFlag) =
      some ((LPAStarAlgorithm.init graph lazyFlag).result,
        LPAStarAlgorithm.init graph lazyFlag) ∧
    (LPAStarAlgorithm.init graph lazyFlag).result.solved ≠ some false := by
  unfold LPAStarAlgorithm.init
  rw [if_neg (by simp [hinv])]
  exact ⟨rfl, rfl, rfl, rfl, rfl, by simp⟩

/-- C4, witness: the one-vertex graph with an invalid start. -/
theorem C4_invalid_start_uninitialized_result_witness :
    (LPAStarAlgorithm.init graphC4 false).pq = [] ∧
    (LPAStarAlgorithm.init graphC4 false).vdata = [] ∧
    (LPAStarAlgorithm.init graphC4 false).result.path = [] ∧
    (LPAStarAlgorithm.init graphC4 false).result.solved = none ∧
    computeShortestPathFuel graphC4 1 (LPAStarAlgorithm.init graphC4 false) =
      some ((LPAStarAlgorithm.init graphC4 false).result,
        LPAStarAlgorithm.init graphC4 false) ∧
    (LPAStarAlgorithm.init graphC4 false).result.solved ≠ some false :=
  C4_invalid_start_uninitialized_result graphC4 false rfl


/-- C3, corrected claim: a key update on a goal vertex `v` compares the
candidate `computeKey(g, goal_cost, rhs) = (min(g,rhs) + goal_cost(v),
min(g,rhs))` against the best-known goal key - not `(g + goal_cost(v), g)` as
claimed, the two coincide only when `g ≤ rhs` - and when the candidate is
smaller the algorithm records `goal_node = v`, `goal_cost = goal_cost(v)`,
`path_cost = g(v)` and `solved = (g(v) = rhs(v))`. -/
theorem C3_goal_tracking_amended (graph : SGraph) (st : LPAState) (v : ℕ) (vd : VertexData)
    (hvd : lookupA st.vdata v = some vd)
    (hgoal : graph.isGoalV v = true)
    (himp : keyLt (computeKey vd.g (graph.goalCost v) vd.rhs) st.goal_key = true) :
    (updateVertexKey graph st v).goal_key =
      (iAdd (iMin vd.g vd.rhs) (graph.goalCost v), iMin vd.g vd.rhs) ∧
    (updateVertexKey graph st v).result.goal_node = some v ∧
    (updateVertexKey graph st v).result.goal_cost = some (graph.goalCost v) ∧
    (updateVertexKey graph st v).result.path_cost = some vd.g ∧
    (updateVertexKey graph st v).result.solved = some (decide (vd.g = vd.rhs)) := by
  unfold updateVertexKey
  simp only [hvd]
  have hframe := updateVertexKeyPQ_goal_frame st v vd
  unfold updateGoalTracking
  rw [if_pos hgoal, hframe.1, if_pos himp]
  rw [hframe.2]
  exact ⟨rfl, rfl, rfl, rfl, rfl⟩

/-- C3, witness: on the concrete overconsistent goal vertex 7 of `stC3`
(`g = 5`, `rhs = 3`, goal cost `1`, heuristic `2`), the recording fires. -/
theorem C3_goal_tracking_witness :
    (updateVertexKey graphC3 stC3 7).goal_key =
      (iAdd (iMin vd7.g vd7.rhs) (graphC3.goalCost 7), iMin vd7.g vd7.rhs) ∧
    (updateVertexKey graphC3 stC3 7).result.goal_node = some 7 ∧
    (updateVertexKey graphC3 stC3 7).result.goal_cost = some (graphC3.goalCost 7) ∧
    (updateVertexKey graphC3 stC3 7).result.path_cost = some vd7.g ∧
    (updateVertexKey graphC3 stC3 7).result.solved = some (decide (vd7.g = vd7.rhs)) :=
  C3_goal_tracking_amended graphC3 stC3 7 vd7 rfl rfl
    (by simp [computeKey, keyLt, iMin, iAdd, iLt, stC3, vd7, graphC3])

/-- C3, counterexample: on the state `stC3` the comparison fires and records
goal key `(min(5,3) + 1, min(5,3)) = (4, 3)` with `path_cost = 5`; the
claimed candidate `(g + goal_cost, g) = (6, 5)` differs, so the claim as
stated is false for the overconsistent goal vertex. -/
theorem C3_goal_tracking_counterexample :
    (updateVertexKey graphC3 stC3 7).goal_key = (some 4, some 3) ∧
    (updateVertexKey graphC3 stC3 7).result.path_cost = some (some 5) ∧
    (updateVertexKey graphC3 stC3 7).goal_key ≠ (iAdd (some 5) (some 1), some 5) := by
  have hval : (updateVertexKey graphC3 stC3 7).goal_key
      = (some (min (5 : ℚ) 3 + 1), some (min (5 : ℚ) 3)) := rfl
  have hmin : min (5 : ℚ) 3 = 3 := by norm_num
  have hiadd : iAdd (some 5) (some 1) = some ((5 : ℚ) + 1) := rfl
  refine ⟨?_, rfl, ?_⟩
  · rw [hval, hmin]
    norm_num
  · rw [hval, hmin, hiadd]
    intro hcon
    rw [Prod.mk.injEq, Option.some.injEq, Option.some.injEq] at hcon
    have := hcon.2
    norm_num at this


theorem underLoop_graphC2_diverges :
    ∀ (fuel e : ℕ) (st : LPAState), 0 < e →
      underLoop graphC2 [1] 0 fuel 0 e st = none := by
  intro fuel
  induction fuel with
  | zero => intro e st he; rfl
  | succ fuel ih =>
      intro e st he
      unfold underLoop
      rw [if_neg (by omega)]
      exact ih (e + 1) _ (by omega)

theorem cspLoop_graphC2_diverges :
    ∀ fuel : ℕ, cspLoop graphC2 fuel (LPAStarAlgorithm.init graphC2 false) = none := by
  intro fuel
  cases fuel with
  | zero => rfl
  | succ fuel =>
      unfold cspLoop
      show (match underLoop graphC2 [1] 0 (fuel + 1) 0 1 stC2a with
            | none => none
            | some st4 => cspLoop graphC2 fuel (updateVertexKey graphC2 st4 0)) = none
      rw [underLoop_graphC2_diverges (fuel + 1) 1 stC2a (by omega)]

/-- C2, code-bug record: the successor loop of the underconsistent branch of
`computeShortestPath` reads `for (; iter != end_iter; ++end_iter)` (LPAStar.h
line 176): the END iterator is advanced while `iter` never moves, so the loop
re-processes the first successor forever (and past the end of the sequence,
undefined behavior).  On the two-vertex graph `graphC2` the very first pop is
the (consistent) start vertex, which takes this branch, so
`computeShortestPath` does not terminate for any amount of fuel; the claim
that each successor is visited once and the search terminates on every finite
graph fails.  (The loop guard additionally calls `_pq.top()` before
`_pq.empty()`, undefined behavior once the queue drains.) -/
theorem C2_computeShortestPath_diverges (fuel : ℕ) :
    computeShortestPathFuel graphC2 fuel (LPAStarAlgorithm.init graphC2 false) = none := by
  unfold computeShortestPathFuel
  rw [cspLoop_graphC2_diverges fuel]

end HFTS
